import Mathlib

/-!
pinentry: the GetPIN exchange

A shallow embedding of `lib/go/camli/misc/pinentry/pinentry.go`.

The Go code talks to two external programs (pinentry, stty), to the process
environment and to the standard streams.  Everything the code reads from
outside is collected in a `World`; everything it does to the outside is
appended, in program order, to a trace of `Event`s.  A panic raised by the
`set` closure is an `Except.error` carrying the panic string, and the two
deferred functions of `GetPIN` are applied explicitly, in the order Go runs
them (cleanup of the subprocess first, `recover` last).

The helper's output is the sequence of results of the successive calls of
`ReadLine`: result 0 is the greeting, results `1 .. numConfig` answer the
configuration commands that are written, and result `numConfig + 1` answers
`GETPIN`.  Go strings are written as Lean strings; the prefixes the code
tests are ASCII, so a byte offset and a character offset agree on them.
-/

namespace Pinentry

/-! ## Errors -/

/-- An error value made by the library (`exec.Run`, `bufio.Reader.ReadLine`)
and handed to this package: a `*os.PathError`, an `os.Errno`, `os.EOF` and the
like.  `text` is what its method `String()` returns. -/
structure SysError where
  text : String
  deriving DecidableEq, Repr

/-- An `os.Error` value as `GetPIN` can return it.  `errorString s` is what
`os.NewError(s)` and `fmt.Errorf` build in this package: such a value is
identified by its text, so two of them with the same text are not told apart.
`sys e` is an error of the library passed on unchanged; it is never one of
the values this package builds. -/
inductive Error where
  | errorString (s : String)
  | sys (e : SysError)
  deriving DecidableEq, Repr

/-- Line 30: `var ErrCancel = os.NewError("pinentry: Cancel")`. -/
def ErrCancel : Error := .errorString "pinentry: Cancel"

/-! ## Data model -/

/-- Lines 32-34: `type Request struct { Desc, Prompt, OK, Cancel, Error string }`. -/
structure Request where
  Desc : String
  Prompt : String
  OK : String
  Cancel : String
  Error : String
  deriving DecidableEq, Repr

/-- What one call of `ReadLine` gives back: the line (line ending removed),
or the error when `err != nil`.  The `isPrefix` result is dropped, as the
code drops it. -/
abbrev ReadResult := Except SysError String

/-- Everything `GetPIN` reads from outside the program. -/
structure World where
  /-- `exec.LookPath("pinentry")`: the path, or `none` when it fails. -/
  pinentry : Option String
  /-- The error of `exec.Run(bin, ...)` for pinentry, `none` when it is spawned. -/
  runErr : Option SysError
  /-- The result of the `k`-th `br.ReadLine()` on the helper's output,
  counted from 0 (the greeting). -/
  helperOut : Nat → ReadResult
  /-- `os.Getenv("TERM")`. -/
  term : String
  /-- `os.Readlink("/proc/self/fd/0")`: the path, or `none` when it fails. -/
  tty : Option String
  /-- `exec.LookPath("stty")`: the path, or `none` when it fails. -/
  stty : Option String
  /-- Whether `exec.Run` inside `runPass` fails for the given arguments. -/
  passFails : List String → Bool
  /-- The result of the one `ReadLine` on `os.Stdin` in the fallback. -/
  stdinLine : ReadResult

/-- The effects of `GetPIN` on the outside, one constructor per call site. -/
inductive Event where
  /-- A subprocess was started by `exec.Run` with this binary and argv. -/
  | spawn (bin : String) (argv : List String)
  /-- `exec.Run` was called with this binary and argv and returned an error:
  no subprocess runs. -/
  | runFailed (bin : String) (argv : List String)
  /-- `fmt.Fprintf(c.Stdin, ...)` wrote this text to the helper. -/
  | write (s : String)
  /-- `br.ReadLine()` on the helper's output. -/
  | readLine
  /-- `c.Stdin.Close()`. -/
  | stdinClose
  /-- `c.Stdout.Close()`. -/
  | stdoutClose
  /-- `c.Close()`. -/
  | close
  /-- `c.Wait(0)`. -/
  | wait
  /-- `fmt.Printf` wrote this text to standard output. -/
  | print (s : String)
  /-- `ReadLine` on `os.Stdin`. -/
  | readStdin
  deriving DecidableEq, Repr

/-- The running state: the trace so far and how many lines were read from
the helper (the position of `br` in the helper's output). -/
structure St where
  trace : List Event
  reads : Nat
  deriving DecidableEq, Repr

/-- The state at entry of `GetPIN`. -/
def St.init : St := ⟨[], 0⟩

/-- Append one event. -/
def St.emit (st : St) (e : Event) : St := ⟨st.trace ++ [e], st.reads⟩

/-- What `GetPIN` returns, together with the trace of the call. -/
structure Result where
  pin : String
  err : Option Error
  trace : List Event
  deriving DecidableEq, Repr

/-! ## Library functions -/

/-- Go `strings.HasPrefix(s, p)`. -/
def HasPrefix (s p : String) : Bool := p.data.isPrefixOf s.data

/-- The digits of `lowerhex` in `strconv`. -/
def lowerhex (n : Nat) : Char := "0123456789abcdef".data.getD (n % 16) '0'

/-- One step of the loop of Go `strconv.Quote`, the `%q` verb on a string, on
one character: `"` and `\` get a backslash, printable ASCII stands for
itself, the named control characters get their letter, any other character
below 0x80 is `\x` and two hex digits, and a character from 0x80 on is `\u`
and four hex digits or `\U` and eight. -/
def quoteChar (c : Char) : List Char :=
  let bs := Char.ofNat 92
  if c = Char.ofNat 34 then [bs, Char.ofNat 34]
  else if c = bs then [bs, bs]
  else if 32 ≤ c.toNat ∧ c.toNat ≤ 126 then [c]
  else if c.toNat = 7 then [bs, 'a']
  else if c.toNat = 8 then [bs, 'b']
  else if c.toNat = 12 then [bs, 'f']
  else if c.toNat = 10 then [bs, 'n']
  else if c.toNat = 13 then [bs, 'r']
  else if c.toNat = 9 then [bs, 't']
  else if c.toNat = 11 then [bs, 'v']
  else if c.toNat < 128 then [bs, 'x', lowerhex (c.toNat / 16), lowerhex c.toNat]
  else if c.toNat < 65536 then
    [bs, 'u', lowerhex (c.toNat / 4096), lowerhex (c.toNat / 256),
      lowerhex (c.toNat / 16), lowerhex c.toNat]
  else
    [bs, 'U', lowerhex (c.toNat / 268435456), lowerhex (c.toNat / 16777216),
      lowerhex (c.toNat / 1048576), lowerhex (c.toNat / 65536),
      lowerhex (c.toNat / 4096), lowerhex (c.toNat / 256),
      lowerhex (c.toNat / 16), lowerhex c.toNat]

/-- Go `strconv.Quote`, which `%q` applies to a string: the escaped
characters between two double quotes. -/
def quote (s : String) : String :=
  ⟨Char.ofNat 34 :: (s.data.flatMap quoteChar ++ [Char.ofNat 34])⟩

/-! ## The protocol path -/

/-- One `br.ReadLine()` on the helper's output. -/
def readLine (w : World) (st : St) : ReadResult × St :=
  (w.helperOut st.reads, ⟨st.trace ++ [Event.readLine], st.reads + 1⟩)

/-- Lines 72-84, the closure `set`: nothing for an empty value; otherwise
write `cmd val\n`, read one line, and panic unless it is exactly `OK`.
`Except.error` carries the panic string. -/
def set (w : World) (cmd val : String) (st : St) : Except String Unit × St :=
  if val = "" then (.ok (), st)
  else
    let st1 := st.emit (.write (cmd ++ " " ++ val ++ "\n"))
    let rd := readLine w st1
    match rd.1 with
    | .error _ => (.error ("Failed to " ++ cmd), rd.2)
    | .ok line =>
      if line ≠ "OK" then (.error ("Response to " ++ cmd ++ " was " ++ line), rd.2)
      else (.ok (), rd.2)

/-- Run `k` after `a` unless `a` panicked. -/
def andThen (a : Except String Unit × St) (k : St → Except String Unit × St) :
    Except String Unit × St :=
  match a.1 with
  | .error e => (.error e, a.2)
  | .ok _ => k a.2

/-- Lines 85-94: the calls of `set`, in the order of the source. -/
def configure (w : World) (r : Request) (st : St) : Except String Unit × St :=
  andThen (set w "SETPROMPT" r.Prompt st) fun st =>
  andThen (set w "SETDESC" r.Desc st) fun st =>
  andThen (set w "SETOK" r.OK st) fun st =>
  andThen (set w "SETCANCEL" r.Cancel st) fun st =>
  andThen (set w "SETERROR" r.Error st) fun st =>
  andThen (set w "OPTION" ("ttytype=" ++ w.term) st) fun st =>
  match w.tty with
  | some tty => set w "OPTION" ("ttyname=" ++ tty) st
  | none => (.ok (), st)

/-- Lines 63-107: the body of `GetPIN` once the helper runs.  `Except.error`
is a panic that leaves the body; `Except.ok` is a `return`. -/
def exchange (w : World) (r : Request) (st : St) :
    Except String (String × Option Error) × St :=
  let rd := readLine w st
  match rd.1 with
  | .error _ => (.ok ("", some (.errorString "Failed to get getpin greeting")), rd.2)
  | .ok line =>
    if !HasPrefix line "OK" then
      (.ok ("", some (.errorString ("getpin greeting said " ++ quote line))), rd.2)
    else
      let cf := configure w r rd.2
      match cf.1 with
      | .error e => (.error e, cf.2)
      | .ok _ =>
        let rd2 := readLine w (cf.2.emit (.write "GETPIN\n"))
        match rd2.1 with
        | .error err =>
          (.ok ("", some (.errorString
            ("Failed to read line after GETPIN: " ++ err.text))), rd2.2)
        | .ok line =>
          if HasPrefix line "D " then (.ok (⟨line.data.drop 2⟩, none), rd2.2)
          else if HasPrefix line "ERR 83886179 " then (.ok ("", some ErrCancel), rd2.2)
          else
            (.ok ("", some (.errorString
              ("GETPIN response didn't start with D; got " ++ quote line))), rd2.2)

/-- Lines 57-62, the deferred cleanup of the helper. -/
def cleanup (st : St) : St :=
  (((st.emit .stdinClose).emit .stdoutClose).emit .close).emit .wait

/-! ## The fallback path -/

/-- Lines 110-121, `runPass`: start the program; when that fails, return;
otherwise the deferred function closes and waits. -/
def runPass (w : World) (bin : String) (args : List String) (st : St) : St :=
  if w.passFails args then st.emit (.runFailed bin (bin :: args))
  else ((st.emit (.spawn bin (bin :: args))).emit .close).emit .wait

/-- Lines 123-145, `getPINNaïve`. -/
def getPINNaive (w : World) (r : Request) (st : St) : (String × Option Error) × St :=
  match w.stty with
  | none => (("", some (.errorString "no pinentry or stty found")), st)
  | some stty =>
    let st1 := runPass w stty ["-echo"] st
    let st2 := if r.Desc ≠ "" then st1.emit (.print (r.Desc ++ "\n\n")) else st1
    let prompt := if r.Prompt = "" then "Password" else r.Prompt
    let st3 := st2.emit (.print (prompt ++ ": "))
    let st4 := st3.emit .readStdin
    let res : String × Option Error :=
      match w.stdinLine with
      | .error err => ("", some (.sys err))
      | .ok line => (line, none)
    (res, runPass w stty ["echo"] st4)

/-! ## GetPIN -/

/-- Lines 36-108, `GetPIN`.  The deferred cleanup runs when the body is
left, by `return` or by panic; then the first deferred function recovers a
string panic into `pin = ""` and `outerr = os.NewError(e)`. -/
def GetPIN (w : World) (r : Request) : Result :=
  match w.pinentry with
  | none =>
    let out := getPINNaive w r St.init
    ⟨out.1.1, out.1.2, out.2.trace⟩
  | some bin =>
    match w.runErr with
    | some err => ⟨"", some (.sys err), [.runFailed bin [bin]]⟩
    | none =>
      let out := exchange w r (St.init.emit (.spawn bin [bin]))
      let st := cleanup out.2
      match out.1 with
      | .error e => ⟨"", some (.errorString e), st.trace⟩
      | .ok res => ⟨res.1, res.2, st.trace⟩

/-- The texts written to the helper, in order. -/
def writes (t : List Event) : List String :=
  t.filterMap fun e => match e with
    | .write s => some s
    | _ => none

/-! ## The handshake as a list

The same calls of `set` as in `configure`, as data, so that the exchange can
be described command by command. -/

/-- The `(cmd, val)` arguments of the calls of `set` of lines 85-94, in order. -/
def configCmds (w : World) (r : Request) : List (String × String) :=
  [("SETPROMPT", r.Prompt), ("SETDESC", r.Desc), ("SETOK", r.OK),
    ("SETCANCEL", r.Cancel), ("SETERROR", r.Error), ("OPTION", "ttytype=" ++ w.term)] ++
  match w.tty with
  | some tty => [("OPTION", "ttyname=" ++ tty)]
  | none => []

/-- The calls of `set` that write something: those with a non-empty value. -/
def sent (cs : List (String × String)) : List (String × String) :=
  cs.filter fun c => c.2 ≠ ""

/-- The text `fmt.Fprintf(c.Stdin, "%s %s\n", cmd, val)` writes. -/
def cmdLine (c : String × String) : String := c.1 ++ " " ++ c.2 ++ "\n"

/-- The trace of a run of accepted commands: each is written, then one line is read. -/
def turns (cs : List (String × String)) : List Event :=
  cs.flatMap fun c => [Event.write (cmdLine c), Event.readLine]

/-- The calls of `set` for a list of arguments, stopping at the first panic. -/
def setAll (w : World) : List (String × String) → St → Except String Unit × St
  | [], st => (.ok (), st)
  | c :: cs, st => andThen (set w c.1 c.2 st) (setAll w cs)

/-- The number of configuration commands `GetPIN` writes when none is rejected. -/
def numConfig (w : World) (r : Request) : Nat := (sent (configCmds w r)).length

/-- The events of the deferred cleanup. -/
def cleanupEvents : List Event := [.stdinClose, .stdoutClose, .close, .wait]

/-- Lines 96-107 as a function of what the `ReadLine` after `GETPIN` gave:
the pair `GetPIN` returns. -/
def getpinReply : ReadResult → String × Option Error
  | .error err =>
    ("", some (.errorString ("Failed to read line after GETPIN: " ++ err.text)))
  | .ok line =>
    if HasPrefix line "D " then (⟨line.data.drop 2⟩, none)
    else if HasPrefix line "ERR 83886179 " then ("", some ErrCancel)
    else ("", some (.errorString ("GETPIN response didn't start with D; got " ++ quote line)))

/-- What the spec says is sent for one field: one command `cmd val` when the
value is not empty, nothing when it is. -/
def setCommand (cmd val : String) : List String :=
  if val = "" then [] else [cmd ++ " " ++ val ++ "\n"]

/-! ## Observations on a trace -/

/-- The argv of every call of `exec.Run` in a trace, in order, whether the
program was started or not. -/
def invocations (t : List Event) : List (List String) :=
  t.filterMap fun e => match e with
    | .spawn _ argv => some argv
    | .runFailed _ argv => some argv
    | _ => none

/-- The binary and argv of every call of `exec.Run` in a trace, in order,
whether the call started the program or returned an error. -/
def execCalls (t : List Event) : List (String × List String) :=
  t.filterMap fun e => match e with
    | .spawn bin argv => some (bin, argv)
    | .runFailed bin argv => some (bin, argv)
    | _ => none

/-- The binary and argv of every program that was started, in order. -/
def started (t : List Event) : List (String × List String) :=
  t.filterMap fun e => match e with
    | .spawn bin argv => some (bin, argv)
    | _ => none

/-- The texts written to standard output, in order. -/
def prints (t : List Event) : List String :=
  t.filterMap fun e => match e with
    | .print s => some s
    | _ => none

/-- Everything written to standard output, as one text. -/
def printed (t : List Event) : String := String.join (prints t)

/-- The number of calls of `ReadLine` on the helper's output. -/
def readCount (t : List Event) : Nat := t.count Event.readLine

/-- The number of newline characters in a text: the number of
newline-terminated lines it holds. -/
def newlines (s : String) : Nat := s.data.count (Char.ofNat 10)

/-- The number of newline-terminated lines written to the helper. -/
def linesWritten (t : List Event) : Nat := ((writes t).map newlines).sum

/-- Whether an event touches the helper's pipes: a write or a read. -/
def Event.isTurn : Event → Bool
  | .write _ => true
  | .readLine => true
  | _ => false

/-- Whether an event is one of the fallback's on the terminal: a text printed
or the read of standard input. -/
def Event.isTerminal : Event → Bool
  | .print _ => true
  | .readStdin => true
  | _ => false

/-- The lines written up to and including `OPTION ttytype`, as the spec
lists them: one SET line per non-empty field, then the ttytype line. -/
def upToTtytype (w : World) (r : Request) : List String :=
  setCommand "SETPROMPT" r.Prompt ++ setCommand "SETDESC" r.Desc ++
    setCommand "SETOK" r.OK ++ setCommand "SETCANCEL" r.Cancel ++
    setCommand "SETERROR" r.Error ++ ["OPTION ttytype=" ++ w.term ++ "\n"]

/-- The turns of a list of texts: each is written, then one line is read. -/
def exchanges (ws : List String) : List Event :=
  ws.flatMap fun s => [Event.write s, Event.readLine]

/-! ## Concrete runs -/

/-- A helper that greets, accepts two commands and answers the third with `reply`. -/
def scriptedOut (reply : ReadResult) (k : Nat) : ReadResult :=
  if k = 0 then .ok "OK Pleased to meet you"
  else if k = 3 then reply
  else .ok "OK"

/-- A machine with pinentry installed, no tty on standard input, whose helper
follows `out`. -/
def helperWorld (out : Nat → ReadResult) : World where
  pinentry := some "/usr/bin/pinentry"
  runErr := none
  helperOut := out
  term := "xterm"
  tty := none
  stty := some "/bin/stty"
  passFails := fun _ => false
  stdinLine := .ok "secretvalue"

/-- A machine without pinentry but with stty, whose standard input gives `line`. -/
def fallbackWorld (line : ReadResult) : World where
  pinentry := none
  runErr := none
  helperOut := fun _ => .error ⟨"EOF"⟩
  term := "xterm"
  tty := none
  stty := some "/bin/stty"
  passFails := fun _ => false
  stdinLine := line

/-- A request that sets only the prompt. -/
def promptOnly : Request := ⟨"", "PIN", "", "", ""⟩

/-- A request with every field empty. -/
def emptyRequest : Request := ⟨"", "", "", "", ""⟩

/-- A request whose prompt holds a newline character: `a`, newline, `b`. -/
def twoLinePrompt : Request := ⟨"", "a\nb", "", "", ""⟩

/-- A machine like `helperWorld` whose standard input is the tty `/dev/pts/3`. -/
def ttyWorld (out : Nat → ReadResult) : World where
  pinentry := some "/usr/bin/pinentry"
  runErr := none
  helperOut := out
  term := "xterm"
  tty := some "/dev/pts/3"
  stty := some "/bin/stty"
  passFails := fun _ => false
  stdinLine := .ok "secretvalue"

/-- A reply line with a double quote in it: `ERR 1 "x"`. -/
def quotedReply : String := "ERR 1 " ++ String.mk [Char.ofNat 34, 'x', Char.ofNat 34]

/-! ## Lemmas on the handshake -/

theorem andThen_done (a : Except String Unit × St) :
    andThen a (fun st => (.ok (), st)) = a := by
  obtain ⟨x, st⟩ := a
  cases x <;> rfl

theorem configure_eq_setAll (w : World) (r : Request) (st : St) :
    configure w r st = setAll w (configCmds w r) st := by
  unfold configure configCmds
  cases w.tty with
  | none => rfl
  | some tty =>
    simp only [List.cons_append, List.nil_append, setAll]
    simp only [andThen_done]

theorem append_ne_of_head (a b c : String) (x y : Char) (l m : List Char)
    (ha : a.data = x :: l) (hc : c.data = y :: m) (hxy : x ≠ y) : a ++ b ≠ c := by
  intro h
  have h2 := congrArg String.data h
  rw [String.data_append, ha, hc] at h2
  simp at h2
  exact hxy h2.1

theorem set_empty (w : World) (cmd : String) (st : St) :
    set w cmd "" st = (.ok (), st) := by
  simp [set]

theorem set_ok (w : World) (cmd val : String) (st : St) (hv : val ≠ "")
    (hr : w.helperOut st.reads = .ok "OK") :
    set w cmd val st =
      (.ok (), ⟨st.trace ++ [Event.write (cmdLine (cmd, val)), Event.readLine], st.reads + 1⟩) := by
  simp [set, hv, readLine, St.emit, hr, cmdLine]

theorem set_bad (w : World) (cmd val : String) (st : St) (hv : val ≠ "")
    (hr : w.helperOut st.reads ≠ .ok "OK") :
    ∃ e, e ≠ "pinentry: Cancel" ∧ set w cmd val st =
      (.error e, ⟨st.trace ++ [Event.write (cmdLine (cmd, val)), Event.readLine], st.reads + 1⟩) := by
  cases hout : w.helperOut st.reads with
  | error err =>
    refine ⟨"Failed to " ++ cmd, append_ne_of_head _ _ _ 'F' 'p' _ _ rfl rfl (by decide), ?_⟩
    simp [set, hv, readLine, St.emit, hout, cmdLine]
  | ok line =>
    have hl : line ≠ "OK" := by
      intro h; apply hr; rw [hout, h]
    refine ⟨"Response to " ++ cmd ++ " was " ++ line, ?_, ?_⟩
    · rw [String.append_assoc, String.append_assoc]
      exact append_ne_of_head _ _ _ 'R' 'p' _ _ rfl rfl (by decide)
    · simp [set, hv, readLine, St.emit, hout, cmdLine, hl]

theorem turns_append (a b : List (String × String)) : turns (a ++ b) = turns a ++ turns b := by
  simp [turns]

theorem setAll_ok (w : World) (cs : List (String × String)) :
    ∀ st : St, (∀ j, j < (sent cs).length → w.helperOut (st.reads + j) = .ok "OK") →
      setAll w cs st = (.ok (), ⟨st.trace ++ turns (sent cs), st.reads + (sent cs).length⟩) := by
  induction cs with
  | nil => intro st _; simp [setAll, sent, turns]
  | cons c cs ih =>
    intro st h
    by_cases hv : c.2 = ""
    · have hs : sent (c :: cs) = sent cs := by simp [sent, hv]
      rw [hs] at h ⊢
      simp only [setAll, hv, set_empty, andThen]
      exact ih st h
    · have hs : sent (c :: cs) = c :: sent cs := by simp [sent, hv]
      rw [hs] at h ⊢
      have h0 : w.helperOut st.reads = .ok "OK" := by simpa using h 0 (by simp)
      simp only [setAll, set_ok w c.1 c.2 st hv h0, andThen]
      rw [ih]
      · simp [turns, Nat.add_assoc, Nat.add_comm 1]
      · intro j hj
        have := h (j + 1) (by simpa using hj)
        simpa [Nat.add_assoc, Nat.add_comm 1] using this

theorem setAll_bad (w : World) (cs : List (String × String)) :
    ∀ (st : St) (k : Nat), k < (sent cs).length →
      (∀ j, j < k → w.helperOut (st.reads + j) = .ok "OK") →
      w.helperOut (st.reads + k) ≠ .ok "OK" →
      ∃ e, e ≠ "pinentry: Cancel" ∧
        setAll w cs st =
          (.error e, ⟨st.trace ++ turns ((sent cs).take (k + 1)), st.reads + (k + 1)⟩) := by
  induction cs with
  | nil => intro st k hk; simp [sent] at hk
  | cons c cs ih =>
    intro st k hk h hbad
    by_cases hv : c.2 = ""
    · have hs : sent (c :: cs) = sent cs := by simp [sent, hv]
      rw [hs] at hk ⊢
      simp only [setAll, hv, set_empty, andThen]
      exact ih st k hk h hbad
    · have hs : sent (c :: cs) = c :: sent cs := by simp [sent, hv]
      rw [hs] at hk ⊢
      cases k with
      | zero =>
        obtain ⟨e, he, hset⟩ := set_bad w c.1 c.2 st hv (by simpa using hbad)
        refine ⟨e, he, ?_⟩
        simp only [setAll, hset, andThen]
        simp [turns]
      | succ k =>
        have h0 : w.helperOut st.reads = .ok "OK" := by simpa using h 0 (by simp)
        simp only [setAll, set_ok w c.1 c.2 st hv h0, andThen]
        obtain ⟨e, he, hrest⟩ := ih ⟨st.trace ++ [Event.write (cmdLine (c.1, c.2)), Event.readLine],
          st.reads + 1⟩ k (by simpa using hk)
          (by
            intro j hj
            have := h (j + 1) (by omega)
            simpa [Nat.add_assoc, Nat.add_comm 1] using this)
          (by simpa [Nat.add_assoc, Nat.add_comm 1] using hbad)
        refine ⟨e, he, ?_⟩
        rw [hrest]
        simp [turns, Nat.add_assoc, Nat.add_comm 1]

theorem first_bad (P : Nat → Prop) [DecidablePred P] (n : Nat) :
    (∀ j, j < n → P j) ∨ ∃ k, k < n ∧ (∀ j, j < k → P j) ∧ ¬ P k := by
  induction n with
  | zero => left; intro j hj; omega
  | succ n ih =>
    rcases ih with h | ⟨k, hk, hlt, hbad⟩
    · by_cases hn : P n
      · left
        intro j hj
        rcases Nat.lt_succ_iff_lt_or_eq.mp hj with h1 | h1
        · exact h j h1
        · rw [h1]; exact hn
      · right; exact ⟨n, Nat.lt_succ_self n, h, hn⟩
    · right; exact ⟨k, Nat.lt_succ_of_lt hk, hlt, hbad⟩

/-! ## Lemmas on the whole exchange -/

theorem cleanup_trace (st : St) : (cleanup st).trace = st.trace ++ cleanupEvents := by
  simp [cleanup, St.emit, cleanupEvents]

theorem exchange_accepted (w : World) (r : Request) (st : St) (g : String)
    (hg : w.helperOut st.reads = .ok g) (hOK : HasPrefix g "OK" = true)
    (hcfg : ∀ j, j < numConfig w r → w.helperOut (st.reads + 1 + j) = .ok "OK") :
    exchange w r st =
      (.ok (getpinReply (w.helperOut (st.reads + 1 + numConfig w r))),
        ⟨st.trace ++ [Event.readLine] ++ turns (sent (configCmds w r)) ++
            [Event.write "GETPIN\n", Event.readLine],
          st.reads + 1 + numConfig w r + 1⟩) := by
  have hc := setAll_ok w (configCmds w r) ⟨st.trace ++ [Event.readLine], st.reads + 1⟩ hcfg
  unfold exchange
  simp only [readLine, hg, hOK, configure_eq_setAll, hc, St.emit, numConfig]
  cases hrep : w.helperOut (st.reads + 1 + (sent (configCmds w r)).length) with
  | error err => simp [getpinReply]
  | ok line =>
    by_cases hD : HasPrefix line "D " = true
    · simp [getpinReply, hD]
    · by_cases hE : HasPrefix line "ERR 83886179 " = true
      · simp [getpinReply, hD, hE]
      · simp [getpinReply, hD, hE]

theorem exchange_rejected (w : World) (r : Request) (st : St) (g : String) (k : Nat)
    (hg : w.helperOut st.reads = .ok g) (hOK : HasPrefix g "OK" = true)
    (hk : k < numConfig w r)
    (hcfg : ∀ j, j < k → w.helperOut (st.reads + 1 + j) = .ok "OK")
    (hbad : w.helperOut (st.reads + 1 + k) ≠ .ok "OK") :
    ∃ e, e ≠ "pinentry: Cancel" ∧
      exchange w r st =
        (.error e,
          ⟨st.trace ++ [Event.readLine] ++ turns ((sent (configCmds w r)).take (k + 1)),
            st.reads + 1 + (k + 1)⟩) := by
  obtain ⟨e, he, hc⟩ :=
    setAll_bad w (configCmds w r) ⟨st.trace ++ [Event.readLine], st.reads + 1⟩ k hk hcfg hbad
  refine ⟨e, he, ?_⟩
  unfold exchange
  simp only [readLine, hg, hOK, configure_eq_setAll, hc]
  simp

theorem greeting_ne_cancel (line : String) :
    "getpin greeting said " ++ quote line ≠ "pinentry: Cancel" :=
  append_ne_of_head _ _ _ 'g' 'p' _ _ rfl rfl (by decide)

theorem exchange_greeting (w : World) (r : Request) (st : St)
    (hbad : ∀ g, w.helperOut st.reads = .ok g → HasPrefix g "OK" = false) :
    ∃ e, e ≠ "pinentry: Cancel" ∧
      exchange w r st = (.ok ("", some (.errorString e)), ⟨st.trace ++ [Event.readLine], st.reads + 1⟩) := by
  cases hout : w.helperOut st.reads with
  | error err =>
    refine ⟨"Failed to get getpin greeting", by decide, ?_⟩
    simp [exchange, readLine, hout]
  | ok g =>
    refine ⟨"getpin greeting said " ++ quote g, greeting_ne_cancel g, ?_⟩
    simp [exchange, readLine, hout, hbad g hout]

/-! ## Lemmas on GetPIN -/

theorem GetPIN_accepted (w : World) (r : Request) (bin g : String)
    (hbin : w.pinentry = some bin) (hrun : w.runErr = none)
    (hg : w.helperOut 0 = .ok g) (hOK : HasPrefix g "OK" = true)
    (hcfg : ∀ j, 1 ≤ j → j ≤ numConfig w r → w.helperOut j = .ok "OK") :
    GetPIN w r =
      ⟨(getpinReply (w.helperOut (numConfig w r + 1))).1,
        (getpinReply (w.helperOut (numConfig w r + 1))).2,
        [Event.spawn bin [bin], Event.readLine] ++ turns (sent (configCmds w r)) ++
          [Event.write "GETPIN\n", Event.readLine] ++ cleanupEvents⟩ := by
  have hex := exchange_accepted w r (St.init.emit (.spawn bin [bin])) g
    (by simpa [St.init, St.emit] using hg) hOK
    (by
      intro j hj
      have := hcfg (j + 1) (by omega) (by omega)
      simpa [St.init, St.emit, Nat.add_comm] using this)
  simp only [GetPIN, hbin, hrun, hex, cleanup_trace]
  simp [St.init, St.emit, Nat.add_comm]

theorem GetPIN_rejected (w : World) (r : Request) (bin g : String) (k : Nat)
    (hbin : w.pinentry = some bin) (hrun : w.runErr = none)
    (hg : w.helperOut 0 = .ok g) (hOK : HasPrefix g "OK" = true)
    (hk1 : 1 ≤ k) (hk : k ≤ numConfig w r)
    (hcfg : ∀ j, 1 ≤ j → j < k → w.helperOut j = .ok "OK")
    (hbad : w.helperOut k ≠ .ok "OK") :
    ∃ e, e ≠ "pinentry: Cancel" ∧
      GetPIN w r =
        ⟨"", some (.errorString e),
          [Event.spawn bin [bin], Event.readLine] ++ turns ((sent (configCmds w r)).take k) ++
            cleanupEvents⟩ := by
  obtain ⟨k, rfl⟩ : ∃ i, k = i + 1 := ⟨k - 1, by omega⟩
  obtain ⟨e, he, hex⟩ := exchange_rejected w r (St.init.emit (.spawn bin [bin])) g k
    (by simpa [St.init, St.emit] using hg) hOK (by omega)
    (by
      intro j hj
      have := hcfg (j + 1) (by omega) (by omega)
      simpa [St.init, St.emit, Nat.add_comm] using this)
    (by simpa [St.init, St.emit, Nat.add_comm] using hbad)
  refine ⟨e, he, ?_⟩
  simp only [GetPIN, hbin, hrun, hex, cleanup_trace]
  simp [St.init, St.emit]

theorem GetPIN_greeting (w : World) (r : Request) (bin : String)
    (hbin : w.pinentry = some bin) (hrun : w.runErr = none)
    (hbad : ∀ g, w.helperOut 0 = .ok g → HasPrefix g "OK" = false) :
    ∃ e, e ≠ "pinentry: Cancel" ∧
      GetPIN w r =
        ⟨"", some (.errorString e),
          [Event.spawn bin [bin], Event.readLine] ++ cleanupEvents⟩ := by
  obtain ⟨e, he, hex⟩ := exchange_greeting w r (St.init.emit (.spawn bin [bin]))
    (by simpa [St.init, St.emit] using hbad)
  refine ⟨e, he, ?_⟩
  simp only [GetPIN, hbin, hrun, hex, cleanup_trace]
  simp [St.init, St.emit]

theorem errorString_ne_cancel (e : String) (h : e ≠ "pinentry: Cancel") :
    Error.errorString e ≠ ErrCancel := by
  intro h2
  apply h
  simpa [ErrCancel] using h2

/-! ## Lemmas on quoting and on what is written -/

theorem quoteChar_plain (c : Char) (h1 : 32 ≤ c.toNat) (h2 : c.toNat ≤ 126)
    (h3 : c ≠ Char.ofNat 34) (h4 : c ≠ Char.ofNat 92) : quoteChar c = [c] := by
  simp [quoteChar, h1, h2, h3, h4]

theorem flatMap_quoteChar_plain (l : List Char)
    (h : ∀ c ∈ l, 32 ≤ c.toNat ∧ c.toNat ≤ 126 ∧ c ≠ Char.ofNat 34 ∧ c ≠ Char.ofNat 92) :
    l.flatMap quoteChar = l := by
  induction l with
  | nil => rfl
  | cons c l ih =>
    have hc := h c (by simp)
    rw [List.flatMap_cons, quoteChar_plain c hc.1 hc.2.1 hc.2.2.1 hc.2.2.2, ih]
    · rfl
    · intro d hd; exact h d (by simp [hd])

theorem infix_quoted (p s : String)
    (h : ∀ c ∈ s.data, 32 ≤ c.toNat ∧ c.toNat ≤ 126 ∧ c ≠ Char.ofNat 34 ∧ c ≠ Char.ofNat 92) :
    s.data <:+: (p ++ quote s).data := by
  rw [String.data_append]
  exact ⟨p.data ++ [Char.ofNat 34], [Char.ofNat 34], by
    simp [quote, flatMap_quoteChar_plain s.data h]⟩

theorem unexpected_ne_cancel (line : String) :
    "GETPIN response didn't start with D; got " ++ quote line ≠ "pinentry: Cancel" :=
  append_ne_of_head _ _ _ 'G' 'p' _ _ rfl rfl (by decide)

theorem writes_append (a b : List Event) : writes (a ++ b) = writes a ++ writes b := by
  simp [writes, List.filterMap_append]

theorem writes_turns (cs : List (String × String)) : writes (turns cs) = cs.map cmdLine := by
  induction cs with
  | nil => rfl
  | cons c cs ih =>
    have : turns (c :: cs) = [Event.write (cmdLine c), Event.readLine] ++ turns cs := by
      simp [turns]
    rw [this, writes_append, ih]
    simp [writes]

theorem writes_cleanupEvents : writes cleanupEvents = [] := by
  simp [writes, cleanupEvents]

theorem sent_cons_map (c : String × String) (cs : List (String × String)) :
    (sent (c :: cs)).map cmdLine = setCommand c.1 c.2 ++ (sent cs).map cmdLine := by
  by_cases hv : c.2 = "" <;> simp [sent, setCommand, hv, cmdLine]

theorem append_ne_empty (a b : String) (x : Char) (l : List Char) (ha : a.data = x :: l) :
    a ++ b ≠ "" := by
  intro h
  have h2 := congrArg String.data h
  rw [String.data_append, ha] at h2
  simp at h2

theorem sent_configCmds (w : World) (r : Request) :
    (sent (configCmds w r)).map cmdLine =
      setCommand "SETPROMPT" r.Prompt ++ setCommand "SETDESC" r.Desc ++
        setCommand "SETOK" r.OK ++ setCommand "SETCANCEL" r.Cancel ++
        setCommand "SETERROR" r.Error ++ ["OPTION ttytype=" ++ w.term ++ "\n"] ++
        (match w.tty with
          | some tty => ["OPTION ttyname=" ++ tty ++ "\n"]
          | none => []) := by
  have h1 : ∀ x : String, ("ttytype=" ++ x = "") = False := fun x =>
    eq_false (append_ne_empty _ x 't' _ rfl)
  have h2 : ∀ x : String, ("ttyname=" ++ x = "") = False := fun x =>
    eq_false (append_ne_empty _ x 't' _ rfl)
  have h3 : ∀ x : String, "OPTION " ++ ("ttytype=" ++ x) = "OPTION ttytype=" ++ x :=
    fun x => by rw [← String.append_assoc]; rfl
  have h4 : ∀ x : String, "OPTION " ++ ("ttyname=" ++ x) = "OPTION ttyname=" ++ x :=
    fun x => by rw [← String.append_assoc]; rfl
  cases htty : w.tty with
  | none =>
    simp only [configCmds, htty, List.append_nil, sent_cons_map]
    simp [sent, setCommand, h1, h3, String.append_assoc]
  | some tty =>
    simp only [configCmds, htty, List.cons_append, List.nil_append, sent_cons_map]
    simp [sent, setCommand, h1, h2, h3, h4, String.append_assoc]

theorem cmdLine_ne (a v b : String) (x y : Char) (l m : List Char)
    (ha : a.data = x :: l) (hb : b.data = y :: m) (hxy : x ≠ y) : cmdLine (a, v) ≠ b := by
  unfold cmdLine
  rw [String.append_assoc, String.append_assoc]
  exact append_ne_of_head _ _ _ x y l m ha hb hxy

theorem cmdLine_ne_getpin (w : World) (r : Request) :
    ∀ c ∈ configCmds w r, cmdLine c ≠ "GETPIN\n" := by
  have hS : ∀ (a v : String) (l : List Char), a.data = 'S' :: l →
      cmdLine (a, v) ≠ "GETPIN\n" := fun a v l ha =>
    cmdLine_ne a v _ 'S' 'G' l _ ha rfl (by decide)
  have hO : ∀ (a v : String) (l : List Char), a.data = 'O' :: l →
      cmdLine (a, v) ≠ "GETPIN\n" := fun a v l ha =>
    cmdLine_ne a v _ 'O' 'G' l _ ha rfl (by decide)
  intro c hc
  unfold configCmds at hc
  cases htty : w.tty <;> simp only [htty, List.cons_append, List.nil_append, List.append_nil,
    List.mem_cons, List.mem_singleton, List.not_mem_nil, or_false] at hc
  · rcases hc with rfl | rfl | rfl | rfl | rfl | rfl
    · exact hS _ _ _ rfl
    · exact hS _ _ _ rfl
    · exact hS _ _ _ rfl
    · exact hS _ _ _ rfl
    · exact hS _ _ _ rfl
    · exact hO _ _ _ rfl
  · rcases hc with rfl | rfl | rfl | rfl | rfl | rfl | rfl
    · exact hS _ _ _ rfl
    · exact hS _ _ _ rfl
    · exact hS _ _ _ rfl
    · exact hS _ _ _ rfl
    · exact hS _ _ _ rfl
    · exact hO _ _ _ rfl
    · exact hO _ _ _ rfl

/-! ## The claims -/

/-- C1: on the protocol path with an accepted handshake, the reply line
`D s` to GETPIN makes GetPIN return the secret `s`, everything after the two
characters `D ` and possibly empty, with no error. -/
theorem getpin_data_reply (w : World) (r : Request) (bin g s : String)
    (hbin : w.pinentry = some bin) (hrun : w.runErr = none)
    (hg : w.helperOut 0 = .ok g) (hOK : HasPrefix g "OK" = true)
    (hcfg : ∀ j, 1 ≤ j → j ≤ numConfig w r → w.helperOut j = .ok "OK")
    (hrep : w.helperOut (numConfig w r + 1) = .ok ("D " ++ s)) :
    (GetPIN w r).pin = s ∧ (GetPIN w r).err = none := by
  rw [GetPIN_accepted w r bin g hbin hrun hg hOK hcfg, hrep]
  simp [getpinReply, HasPrefix]

/-- Witness for C1: the reply `D hunter2` gives the secret `hunter2` and no error. -/
theorem getpin_data_reply_witness :
    (GetPIN (helperWorld (scriptedOut (.ok "D hunter2"))) promptOnly).pin = "hunter2" ∧
      (GetPIN (helperWorld (scriptedOut (.ok "D hunter2"))) promptOnly).err = none :=
  getpin_data_reply (helperWorld (scriptedOut (.ok "D hunter2"))) promptOnly
    "/usr/bin/pinentry" "OK Pleased to meet you" "hunter2" rfl rfl rfl (by decide)
    (by
      intro j h1 h2
      have hn : numConfig (helperWorld (scriptedOut (.ok "D hunter2"))) promptOnly = 2 := by
        decide
      rw [hn] at h2
      interval_cases j <;> rfl)
    rfl

/-- C2: on the protocol path with an accepted handshake, a reply to GETPIN
that begins with `ERR 83886179 ` makes GetPIN return the empty secret and
ErrCancel, whatever text follows the prefix. -/
theorem getpin_cancel_reply (w : World) (r : Request) (bin g rest : String)
    (hbin : w.pinentry = some bin) (hrun : w.runErr = none)
    (hg : w.helperOut 0 = .ok g) (hOK : HasPrefix g "OK" = true)
    (hcfg : ∀ j, 1 ≤ j → j ≤ numConfig w r → w.helperOut j = .ok "OK")
    (hrep : w.helperOut (numConfig w r + 1) = .ok ("ERR 83886179 " ++ rest)) :
    (GetPIN w r).pin = "" ∧ (GetPIN w r).err = some ErrCancel := by
  rw [GetPIN_accepted w r bin g hbin hrun hg hOK hcfg, hrep]
  simp [getpinReply, HasPrefix]

/-- Witness for C2: the reply `ERR 83886179 cancelled` gives the empty secret and ErrCancel. -/
theorem getpin_cancel_reply_witness :
    (GetPIN (helperWorld (scriptedOut (.ok "ERR 83886179 cancelled"))) promptOnly).pin = "" ∧
      (GetPIN (helperWorld (scriptedOut (.ok "ERR 83886179 cancelled"))) promptOnly).err =
        some ErrCancel :=
  getpin_cancel_reply (helperWorld (scriptedOut (.ok "ERR 83886179 cancelled"))) promptOnly
    "/usr/bin/pinentry" "OK Pleased to meet you" "cancelled" rfl rfl rfl (by decide)
    (by
      intro j h1 h2
      have hn : numConfig (helperWorld (scriptedOut (.ok "ERR 83886179 cancelled")))
          promptOnly = 2 := by decide
      rw [hn] at h2
      interval_cases j <;> rfl)
    rfl

/-- C3 as stated fails: the reply `ERR 1 "x"` begins with neither prefix, the
handshake before it is accepted, and the message of the error GetPIN returns
does not contain that line, because `%q` writes its quotes with a backslash. -/
theorem getpin_unexpected_reply_not_verbatim :
    (helperWorld (scriptedOut (.ok quotedReply))).helperOut 0 = .ok "OK Pleased to meet you" ∧
      (helperWorld (scriptedOut (.ok quotedReply))).helperOut
        (numConfig (helperWorld (scriptedOut (.ok quotedReply))) promptOnly + 1) =
          .ok quotedReply ∧
      HasPrefix quotedReply "D " = false ∧
      HasPrefix quotedReply "ERR 83886179 " = false ∧
      ∃ m, (GetPIN (helperWorld (scriptedOut (.ok quotedReply))) promptOnly).err =
          some (.errorString m) ∧ ¬ (quotedReply.data <:+: m.data) :=
  ⟨rfl, rfl, by decide, by decide, _, rfl, by decide⟩

/-- C3, amended: on the protocol path with an accepted handshake, a reply to
GETPIN that begins with neither `D ` nor `ERR 83886179 ` makes GetPIN return
the empty secret and an error that is not ErrCancel, whose message is
`GETPIN response didn't start with D; got ` followed by the line as `%q`
quotes it; that message contains the line verbatim when every character of
the line is printable ASCII other than the double quote and the backslash. -/
theorem getpin_unexpected_reply (w : World) (r : Request) (bin g line : String)
    (hbin : w.pinentry = some bin) (hrun : w.runErr = none)
    (hg : w.helperOut 0 = .ok g) (hOK : HasPrefix g "OK" = true)
    (hcfg : ∀ j, 1 ≤ j → j ≤ numConfig w r → w.helperOut j = .ok "OK")
    (hrep : w.helperOut (numConfig w r + 1) = .ok line)
    (hD : HasPrefix line "D " = false) (hE : HasPrefix line "ERR 83886179 " = false) :
    (GetPIN w r).pin = "" ∧
      (GetPIN w r).err =
        some (.errorString ("GETPIN response didn't start with D; got " ++ quote line)) ∧
      (GetPIN w r).err ≠ some ErrCancel ∧
      ((∀ c ∈ line.data,
          32 ≤ c.toNat ∧ c.toNat ≤ 126 ∧ c ≠ Char.ofNat 34 ∧ c ≠ Char.ofNat 92) →
        line.data <:+: ("GETPIN response didn't start with D; got " ++ quote line).data) := by
  rw [GetPIN_accepted w r bin g hbin hrun hg hOK hcfg, hrep]
  refine ⟨by simp [getpinReply, hD, hE], by simp [getpinReply, hD, hE], ?_, infix_quoted _ line⟩
  simp only [getpinReply, hD, hE]
  intro h
  exact errorString_ne_cancel _ (unexpected_ne_cancel line) (Option.some.inj h)

/-- Witness for C3, amended: the reply `ERR 99999999 boom` gives the empty
secret and a message that contains `ERR 99999999 boom`. -/
theorem getpin_unexpected_reply_witness :
    (GetPIN (helperWorld (scriptedOut (.ok "ERR 99999999 boom"))) promptOnly).pin = "" ∧
      (GetPIN (helperWorld (scriptedOut (.ok "ERR 99999999 boom"))) promptOnly).err =
        some (.errorString "GETPIN response didn't start with D; got \"ERR 99999999 boom\"") ∧
      "ERR 99999999 boom".data <:+:
        "GETPIN response didn't start with D; got \"ERR 99999999 boom\"".data :=
  have h := getpin_unexpected_reply (helperWorld (scriptedOut (.ok "ERR 99999999 boom")))
    promptOnly "/usr/bin/pinentry" "OK Pleased to meet you" "ERR 99999999 boom"
    rfl rfl rfl (by decide)
    (by
      intro j h1 h2
      have hn : numConfig (helperWorld (scriptedOut (.ok "ERR 99999999 boom")))
          promptOnly = 2 := by decide
      rw [hn] at h2
      interval_cases j <;> rfl)
    rfl (by decide) (by decide)
  ⟨h.1, h.2.1, h.2.2.2 (by decide)⟩

/-- C4: when the helper greets with `OK` and answers every configuration
command with exactly `OK`, the texts GetPIN writes to the helper are, in this
order: one line `CMD value` for each non-empty field and nothing for an empty
one, in the order SETPROMPT (Prompt), SETDESC (Desc), SETOK (OK), SETCANCEL
(Cancel), SETERROR (Error); then the OPTION lines; then GETPIN. -/
theorem set_commands_sent (w : World) (r : Request) (bin g : String)
    (hbin : w.pinentry = some bin) (hrun : w.runErr = none)
    (hg : w.helperOut 0 = .ok g) (hOK : HasPrefix g "OK" = true)
    (hcfg : ∀ j, 1 ≤ j → j ≤ numConfig w r → w.helperOut j = .ok "OK") :
    writes (GetPIN w r).trace =
      setCommand "SETPROMPT" r.Prompt ++ setCommand "SETDESC" r.Desc ++
        setCommand "SETOK" r.OK ++ setCommand "SETCANCEL" r.Cancel ++
        setCommand "SETERROR" r.Error ++ ["OPTION ttytype=" ++ w.term ++ "\n"] ++
        (match w.tty with
          | some tty => ["OPTION ttyname=" ++ tty ++ "\n"]
          | none => []) ++
        ["GETPIN\n"] := by
  rw [GetPIN_accepted w r bin g hbin hrun hg hOK hcfg]
  simp only [writes_append, writes_turns, writes_cleanupEvents, sent_configCmds]
  simp [writes]

/-- Witness for C4: with prompt `PIN` and description `Unlock the key`, the
helper gets SETPROMPT, SETDESC, OPTION ttytype and GETPIN, in this order. -/
theorem set_commands_sent_witness :
    writes (GetPIN (helperWorld (fun _ => .ok "OK")) ⟨"Unlock the key", "PIN", "", "", ""⟩).trace =
      ["SETPROMPT PIN\n", "SETDESC Unlock the key\n", "OPTION ttytype=xterm\n", "GETPIN\n"] :=
  set_commands_sent (helperWorld (fun _ => .ok "OK")) ⟨"Unlock the key", "PIN", "", "", ""⟩
    "/usr/bin/pinentry" "OK" rfl rfl rfl (by decide) (fun _ _ _ => rfl)

/-- C5: for a request whose five fields are empty and any value of TERM, when
the helper greets with `OK` and answers every configuration command with
exactly `OK`, GetPIN writes `OPTION ttytype=TERM`, then `OPTION ttyname=path`
only when the tty path of standard input resolves, then `GETPIN`, and
nothing else. -/
theorem empty_request_commands (w : World) (r : Request) (bin g : String)
    (hr : r = ⟨"", "", "", "", ""⟩)
    (hbin : w.pinentry = some bin) (hrun : w.runErr = none)
    (hg : w.helperOut 0 = .ok g) (hOK : HasPrefix g "OK" = true)
    (hcfg : ∀ j, 1 ≤ j → j ≤ numConfig w r → w.helperOut j = .ok "OK") :
    writes (GetPIN w r).trace =
      ["OPTION ttytype=" ++ w.term ++ "\n"] ++
        (match w.tty with
          | some tty => ["OPTION ttyname=" ++ tty ++ "\n"]
          | none => []) ++
        ["GETPIN\n"] := by
  rw [GetPIN_accepted w r bin g hbin hrun hg hOK hcfg]
  simp only [writes_append, writes_turns, writes_cleanupEvents, sent_configCmds]
  subst hr
  simp [writes, setCommand]

/-- Witness for C5: with TERM empty and the tty `/dev/pts/3`, the empty
request sends the two OPTION lines and GETPIN. -/
theorem empty_request_commands_witness :
    writes (GetPIN { helperWorld (fun _ => .ok "OK") with term := "", tty := some "/dev/pts/3" }
        emptyRequest).trace =
      ["OPTION ttytype=\n", "OPTION ttyname=/dev/pts/3\n", "GETPIN\n"] :=
  empty_request_commands
    { helperWorld (fun _ => .ok "OK") with term := "", tty := some "/dev/pts/3" }
    emptyRequest "/usr/bin/pinentry" "OK" rfl rfl rfl rfl (by decide) (fun _ _ _ => rfl)

/-- C6: when the helper is spawned and its first line cannot be read or does
not begin with `OK`, GetPIN returns the empty secret and an error that is not
ErrCancel, and writes nothing to the helper: after the one read, only the
cleanup follows. -/
theorem bad_greeting_aborts (w : World) (r : Request) (bin : String)
    (hbin : w.pinentry = some bin) (hrun : w.runErr = none)
    (hbad : ∀ g, w.helperOut 0 = .ok g → HasPrefix g "OK" = false) :
    (GetPIN w r).pin = "" ∧
      (∃ e, (GetPIN w r).err = some e ∧ e ≠ ErrCancel) ∧
      writes (GetPIN w r).trace = [] ∧
      (GetPIN w r).trace =
        [Event.spawn bin [bin], Event.readLine, Event.stdinClose, Event.stdoutClose,
          Event.close, Event.wait] := by
  obtain ⟨e, he, hG⟩ := GetPIN_greeting w r bin hbin hrun hbad
  rw [hG]
  exact ⟨rfl, ⟨_, rfl, errorString_ne_cancel e he⟩, by simp [writes, cleanupEvents],
    by simp [cleanupEvents]⟩

/-- Witness for C6: a helper whose first line is `ERR 1 no display` gets no
command, and GetPIN returns the empty secret with an error. -/
theorem bad_greeting_aborts_witness :
    (GetPIN (helperWorld (fun _ => .ok "ERR 1 no display")) promptOnly).pin = "" ∧
      (∃ e, (GetPIN (helperWorld (fun _ => .ok "ERR 1 no display")) promptOnly).err = some e ∧
        e ≠ ErrCancel) ∧
      writes (GetPIN (helperWorld (fun _ => .ok "ERR 1 no display")) promptOnly).trace = [] :=
  have h := bad_greeting_aborts (helperWorld (fun _ => .ok "ERR 1 no display")) promptOnly
    "/usr/bin/pinentry" rfl rfl
    (by
      intro g hg
      have hg2 : g = "ERR 1 no display" := (Except.ok.inj hg).symm
      rw [hg2]
      decide)
  ⟨h.1, h.2.1, h.2.2.1⟩

/-- C7: after an accepted greeting, when the reply to the `k`-th configuration
command (SET or OPTION) is the first that cannot be read or is not exactly
`OK`, GetPIN writes nothing after that command: it has written `k` commands,
`GETPIN` is not among them, only the cleanup follows the `k`-th read, and
GetPIN returns the empty secret with an error that is not ErrCancel. -/
theorem rejected_command_aborts (w : World) (r : Request) (bin g : String) (k : Nat)
    (hbin : w.pinentry = some bin) (hrun : w.runErr = none)
    (hg : w.helperOut 0 = .ok g) (hOK : HasPrefix g "OK" = true)
    (hk1 : 1 ≤ k) (hk : k ≤ numConfig w r)
    (hcfg : ∀ j, 1 ≤ j → j < k → w.helperOut j = .ok "OK")
    (hbad : w.helperOut k ≠ .ok "OK") :
    (GetPIN w r).pin = "" ∧
      (∃ e, (GetPIN w r).err = some e ∧ e ≠ ErrCancel) ∧
      (GetPIN w r).trace =
        [Event.spawn bin [bin], Event.readLine] ++ turns ((sent (configCmds w r)).take k) ++
          [Event.stdinClose, Event.stdoutClose, Event.close, Event.wait] ∧
      (writes (GetPIN w r).trace).length = k ∧
      "GETPIN\n" ∉ writes (GetPIN w r).trace := by
  obtain ⟨e, he, hG⟩ := GetPIN_rejected w r bin g k hbin hrun hg hOK hk1 hk hcfg hbad
  rw [hG]
  have hw : writes ([Event.spawn bin [bin], Event.readLine] ++
      turns ((sent (configCmds w r)).take k) ++ cleanupEvents) =
      ((sent (configCmds w r)).take k).map cmdLine := by
    simp only [writes_append, writes_turns, writes_cleanupEvents]
    simp [writes]
  refine ⟨rfl, ⟨_, rfl, errorString_ne_cancel e he⟩, by simp [cleanupEvents], ?_, ?_⟩
  · simp only [hw, List.length_map, List.length_take]
    exact Nat.min_eq_left hk
  · simp only [hw, List.mem_map, not_exists, not_and]
    intro c hc
    have hc2 : c ∈ configCmds w r :=
      List.mem_of_mem_filter (List.mem_of_mem_take hc)
    exact cmdLine_ne_getpin w r c hc2

/-- Witness for C7: a helper that accepts the first command and answers the
second with `OK done` gets no third command, and GetPIN returns the empty secret. -/
theorem rejected_command_aborts_witness :
    (GetPIN (helperWorld fun k => if k = 2 then .ok "OK done" else .ok "OK") promptOnly).pin
        = "" ∧
      (GetPIN (helperWorld fun k => if k = 2 then .ok "OK done" else .ok "OK")
        promptOnly).trace =
        [Event.spawn "/usr/bin/pinentry" ["/usr/bin/pinentry"], Event.readLine,
          Event.write "SETPROMPT PIN\n", Event.readLine,
          Event.write "OPTION ttytype=xterm\n", Event.readLine,
          Event.stdinClose, Event.stdoutClose, Event.close, Event.wait] :=
  have h := rejected_command_aborts
    (helperWorld fun k => if k = 2 then .ok "OK done" else .ok "OK") promptOnly
    "/usr/bin/pinentry" "OK" 2 rfl rfl rfl (by decide) (by decide) (by decide)
    (by
      intro j h1 h2
      interval_cases j
      rfl)
    (by
      intro h
      have h2 : "OK done" = "OK" := Except.ok.inj h
      exact absurd h2 (by decide))
  ⟨h.1, h.2.2.1⟩

theorem getpinReply_pin_empty (x : ReadResult) (h : (getpinReply x).2 ≠ none) :
    (getpinReply x).1 = "" := by
  cases x with
  | error err => rfl
  | ok line =>
    by_cases hD : HasPrefix line "D " = true
    · simp [getpinReply, hD] at h
    · by_cases hE : HasPrefix line "ERR 83886179 " = true <;> simp [getpinReply, hD, hE]

theorem getPINNaive_pin_empty (w : World) (r : Request) (st : St)
    (h : (getPINNaive w r st).1.2 ≠ none) : (getPINNaive w r st).1.1 = "" := by
  unfold getPINNaive at h ⊢
  cases hs : w.stty with
  | none => rfl
  | some stty =>
    cases hl : w.stdinLine with
    | error err => rfl
    | ok line => simp [hs, hl] at h

theorem getPINNaive_ne_cancel (w : World) (r : Request) (st : St) :
    (getPINNaive w r st).1.2 ≠ some ErrCancel := by
  unfold getPINNaive
  cases hs : w.stty with
  | none => simp [ErrCancel]
  | some stty =>
    cases hl : w.stdinLine with
    | error err => simp [ErrCancel]
    | ok line => simp

theorem GetPIN_cases (w : World) (r : Request) (bin : String)
    (hbin : w.pinentry = some bin) (hrun : w.runErr = none) :
    (∃ e, e ≠ "pinentry: Cancel" ∧ (GetPIN w r).pin = "" ∧
        (GetPIN w r).err = some (.errorString e)) ∨
      ∃ g, w.helperOut 0 = .ok g ∧ HasPrefix g "OK" = true ∧
        (∀ j, 1 ≤ j → j ≤ numConfig w r → w.helperOut j = .ok "OK") ∧
        (GetPIN w r).pin = (getpinReply (w.helperOut (numConfig w r + 1))).1 ∧
        (GetPIN w r).err = (getpinReply (w.helperOut (numConfig w r + 1))).2 := by
  classical
  by_cases hgr : ∃ g, w.helperOut 0 = .ok g ∧ HasPrefix g "OK" = true
  · obtain ⟨g, hg, hOK⟩ := hgr
    rcases first_bad (fun j => w.helperOut (j + 1) = .ok "OK") (numConfig w r) with h | h
    · right
      have hcfg : ∀ j, 1 ≤ j → j ≤ numConfig w r → w.helperOut j = .ok "OK" := by
        intro j h1 h2
        have := h (j - 1) (by omega)
        rwa [Nat.sub_add_cancel h1] at this
      refine ⟨g, hg, hOK, hcfg, ?_, ?_⟩ <;>
        rw [GetPIN_accepted w r bin g hbin hrun hg hOK hcfg]
    · left
      obtain ⟨k, hk, hlt, hbad⟩ := h
      obtain ⟨e, he, hG⟩ := GetPIN_rejected w r bin g (k + 1) hbin hrun hg hOK (by omega)
        (by omega)
        (by
          intro j h1 h2
          have := hlt (j - 1) (by omega)
          rwa [Nat.sub_add_cancel h1] at this)
        hbad
      exact ⟨e, he, by rw [hG], by rw [hG]⟩
  · left
    obtain ⟨e, he, hG⟩ := GetPIN_greeting w r bin hbin hrun (by
      intro g hg
      cases hp : HasPrefix g "OK" with
      | false => rfl
      | true => exact absurd ⟨g, hg, hp⟩ hgr)
    exact ⟨e, he, by rw [hG], by rw [hG]⟩

/-- C8: whatever the helper, the environment and the input do, on the
protocol path and on the fallback path, GetPIN never returns both a secret
and an error: when the error is not nil the secret is the empty string. -/
theorem secret_empty_on_error (w : World) (r : Request)
    (h : (GetPIN w r).err ≠ none) : (GetPIN w r).pin = "" := by
  cases hbin : w.pinentry with
  | none =>
    have hG : GetPIN w r = ⟨(getPINNaive w r St.init).1.1, (getPINNaive w r St.init).1.2,
        (getPINNaive w r St.init).2.trace⟩ := by simp [GetPIN, hbin]
    rw [hG] at h ⊢
    exact getPINNaive_pin_empty w r St.init h
  | some bin =>
    cases hrun : w.runErr with
    | some err => simp [GetPIN, hbin, hrun]
    | none =>
      rcases GetPIN_cases w r bin hbin hrun with ⟨e, _, hp, _⟩ | ⟨g, _, _, _, hp, he⟩
      · exact hp
      · rw [hp]
        rw [he] at h
        exact getpinReply_pin_empty _ h

/-- Witness for C8: when the reply to SETCANCEL is not `OK` the panic is
recovered into an error, and the secret is empty. -/
theorem secret_empty_on_error_witness :
    (GetPIN (helperWorld (scriptedOut (.ok "D hunter2"))) ⟨"", "PIN", "Yes", "No", ""⟩).err
        ≠ none ∧
      (GetPIN (helperWorld (scriptedOut (.ok "D hunter2"))) ⟨"", "PIN", "Yes", "No", ""⟩).pin
        = "" :=
  ⟨by decide,
    secret_empty_on_error (helperWorld (scriptedOut (.ok "D hunter2")))
      ⟨"", "PIN", "Yes", "No", ""⟩ (by decide)⟩

theorem getpinReply_cancel (x : ReadResult) (h : (getpinReply x).2 = some ErrCancel) :
    ∃ rest : String, x = .ok ("ERR 83886179 " ++ rest) := by
  cases x with
  | error err =>
    simp only [getpinReply, Option.some.injEq] at h
    exact absurd h (errorString_ne_cancel _
      (append_ne_of_head _ _ _ 'F' 'p' _ _ rfl rfl (by decide)))
  | ok line =>
    by_cases hD : HasPrefix line "D " = true
    · simp [getpinReply, hD] at h
    · by_cases hE : HasPrefix line "ERR 83886179 " = true
      · obtain ⟨t, ht⟩ := List.isPrefixOf_iff_prefix.mp hE
        refine ⟨⟨t⟩, ?_⟩
        congr 1
        apply String.ext
        rw [String.data_append, ← ht]
      · simp [getpinReply, hD, hE] at h
        exact absurd h (errorString_ne_cancel _ (unexpected_ne_cancel line))

/-- C9: GetPIN returns ErrCancel only on the protocol path, after the helper
was spawned, its greeting began with `OK`, every configuration command was
answered with exactly `OK`, and the reply to GETPIN began with
`ERR 83886179 `; every other failure, the fallback's included, gives an
error that is not ErrCancel. -/
theorem cancel_only_from_helper (w : World) (r : Request)
    (h : (GetPIN w r).err = some ErrCancel) :
    ∃ bin g rest, w.pinentry = some bin ∧ w.runErr = none ∧
      w.helperOut 0 = .ok g ∧ HasPrefix g "OK" = true ∧
      (∀ j, 1 ≤ j → j ≤ numConfig w r → w.helperOut j = .ok "OK") ∧
      w.helperOut (numConfig w r + 1) = .ok ("ERR 83886179 " ++ rest) := by
  cases hbin : w.pinentry with
  | none =>
    have hG : (GetPIN w r).err = (getPINNaive w r St.init).1.2 := by simp [GetPIN, hbin]
    rw [hG] at h
    exact absurd h (getPINNaive_ne_cancel w r St.init)
  | some bin =>
    cases hrun : w.runErr with
    | some err => simp [GetPIN, hbin, hrun, ErrCancel] at h
    | none =>
      rcases GetPIN_cases w r bin hbin hrun with ⟨e, hne, _, he⟩ | ⟨g, hg, hOK, hcfg, _, he⟩
      · rw [he] at h
        exact absurd (Option.some.inj h) (errorString_ne_cancel e hne)
      · rw [he] at h
        obtain ⟨rest, hrest⟩ := getpinReply_cancel _ h
        exact ⟨bin, g, rest, rfl, rfl, hg, hOK, hcfg, hrest⟩

/-- Witness for C9: the run that ends in ErrCancel is one whose helper
answered GETPIN with `ERR 83886179 cancelled` after an accepted handshake. -/
theorem cancel_only_from_helper_witness :
    (GetPIN (helperWorld (scriptedOut (.ok "ERR 83886179 cancelled"))) promptOnly).err =
        some ErrCancel ∧
      ∃ bin g rest,
        (helperWorld (scriptedOut (.ok "ERR 83886179 cancelled"))).pinentry = some bin ∧
        (helperWorld (scriptedOut (.ok "ERR 83886179 cancelled"))).runErr = none ∧
        (helperWorld (scriptedOut (.ok "ERR 83886179 cancelled"))).helperOut 0 = .ok g ∧
        HasPrefix g "OK" = true ∧
        (∀ j, 1 ≤ j →
          j ≤ numConfig (helperWorld (scriptedOut (.ok "ERR 83886179 cancelled"))) promptOnly →
          (helperWorld (scriptedOut (.ok "ERR 83886179 cancelled"))).helperOut j = .ok "OK") ∧
        (helperWorld (scriptedOut (.ok "ERR 83886179 cancelled"))).helperOut
          (numConfig (helperWorld (scriptedOut (.ok "ERR 83886179 cancelled"))) promptOnly + 1)
            = .ok ("ERR 83886179 " ++ rest) :=
  ⟨by decide,
    cancel_only_from_helper (helperWorld (scriptedOut (.ok "ERR 83886179 cancelled")))
      promptOnly (by decide)⟩

/-- C10: on the fallback path (no pinentry, stty found), when the read of one
line from standard input succeeds GetPIN returns that line as it is, with no
error; when the read fails GetPIN returns the empty secret and the error of
the read. -/
theorem fallback_returns_line (w : World) (r : Request) (stty : String)
    (hbin : w.pinentry = none) (hstty : w.stty = some stty) :
    (∀ l, w.stdinLine = .ok l → (GetPIN w r).pin = l ∧ (GetPIN w r).err = none) ∧
      (∀ e, w.stdinLine = .error e →
        (GetPIN w r).pin = "" ∧ (GetPIN w r).err = some (.sys e)) := by
  constructor
  · intro l hl
    simp [GetPIN, hbin, getPINNaive, hstty, hl]
  · intro e he
    simp [GetPIN, hbin, getPINNaive, hstty, he]

/-- Witness for C10: the input line `secretvalue` is returned as it is, and a
line with a space at each end keeps both. -/
theorem fallback_returns_line_witness :
    ((GetPIN (fallbackWorld (.ok "secretvalue")) promptOnly).pin = "secretvalue" ∧
        (GetPIN (fallbackWorld (.ok "secretvalue")) promptOnly).err = none) ∧
      ((GetPIN (fallbackWorld (.ok " a b ")) promptOnly).pin = " a b " ∧
        (GetPIN (fallbackWorld (.ok " a b ")) promptOnly).err = none) ∧
      ((GetPIN (fallbackWorld (.error ⟨"EOF"⟩)) promptOnly).pin = "" ∧
        (GetPIN (fallbackWorld (.error ⟨"EOF"⟩)) promptOnly).err = some (.sys ⟨"EOF"⟩)) :=
  ⟨(fallback_returns_line (fallbackWorld (.ok "secretvalue")) promptOnly "/bin/stty"
      rfl rfl).1 "secretvalue" rfl,
    (fallback_returns_line (fallbackWorld (.ok " a b ")) promptOnly "/bin/stty"
      rfl rfl).1 " a b " rfl,
    (fallback_returns_line (fallbackWorld (.error ⟨"EOF"⟩)) promptOnly "/bin/stty"
      rfl rfl).2 ⟨"EOF"⟩ rfl⟩

/-! ## Lemmas on the fallback -/

theorem prints_append (a b : List Event) : prints (a ++ b) = prints a ++ prints b := by
  simp [prints, List.filterMap_append]

theorem runPass_trace (w : World) (bin : String) (args : List String) (st : St) :
    (runPass w bin args st).trace = st.trace ++ (runPass w bin args St.init).trace := by
  unfold runPass
  cases w.passFails args <;> simp [St.emit, St.init]

theorem runPass_prints (w : World) (bin : String) (args : List String) :
    prints (runPass w bin args St.init).trace = [] := by
  unfold runPass
  cases w.passFails args <;> simp [St.emit, St.init, prints]

theorem fallback_trace (w : World) (r : Request) (stty : String)
    (hbin : w.pinentry = none) (hstty : w.stty = some stty) :
    (GetPIN w r).trace =
      (runPass w stty ["-echo"] St.init).trace ++
        ((if r.Desc ≠ "" then [Event.print (r.Desc ++ "\n\n")] else []) ++
          [Event.print ((if r.Prompt = "" then "Password" else r.Prompt) ++ ": "),
            Event.readStdin]) ++
        (runPass w stty ["echo"] St.init).trace := by
  simp only [GetPIN, hbin, getPINNaive, hstty]
  rw [runPass_trace]
  by_cases hd : r.Desc = "" <;> simp [hd, St.emit]

theorem fallback_trace_explicit (w : World) (r : Request) (stty : String)
    (hbin : w.pinentry = none) (hstty : w.stty = some stty) :
    (GetPIN w r).trace =
      (if w.passFails ["-echo"] = true then [Event.runFailed stty [stty, "-echo"]]
        else [Event.spawn stty [stty, "-echo"], Event.close, Event.wait]) ++
        ((if r.Desc ≠ "" then [Event.print (r.Desc ++ "\n\n")] else []) ++
          [Event.print ((if r.Prompt = "" then "Password" else r.Prompt) ++ ": "),
            Event.readStdin]) ++
        (if w.passFails ["echo"] = true then [Event.runFailed stty [stty, "echo"]]
          else [Event.spawn stty [stty, "echo"], Event.close, Event.wait]) := by
  rw [fallback_trace w r stty hbin hstty]
  unfold runPass
  cases w.passFails ["-echo"] <;> cases w.passFails ["echo"] <;> simp [St.emit, St.init]

/-- C11: on the fallback path with stty found, whether the read of standard
input succeeds or fails, stty is invoked exactly twice.  The trace of GetPIN
is: `exec.Run` on stty with argv `stty -echo`, which starts it, after which
it is closed and waited for (or which returns an error, and `runPass`
returns); then the texts printed and the one read of standard input; then
`exec.Run` on stty with argv `stty echo`, in the same way.  There is no
other call of `exec.Run`, and when neither call fails the programs started
are stty with `-echo` and stty with `echo`, and no other. -/
theorem echo_toggled_twice (w : World) (r : Request) (stty : String)
    (hbin : w.pinentry = none) (hstty : w.stty = some stty) :
    (GetPIN w r).trace =
        (if w.passFails ["-echo"] = true then [Event.runFailed stty [stty, "-echo"]]
          else [Event.spawn stty [stty, "-echo"], Event.close, Event.wait]) ++
          ((if r.Desc ≠ "" then [Event.print (r.Desc ++ "\n\n")] else []) ++
            [Event.print ((if r.Prompt = "" then "Password" else r.Prompt) ++ ": "),
              Event.readStdin]) ++
          (if w.passFails ["echo"] = true then [Event.runFailed stty [stty, "echo"]]
            else [Event.spawn stty [stty, "echo"], Event.close, Event.wait]) ∧
      execCalls (GetPIN w r).trace = [(stty, [stty, "-echo"]), (stty, [stty, "echo"])] ∧
      (w.passFails ["-echo"] = false → w.passFails ["echo"] = false →
        started (GetPIN w r).trace = [(stty, [stty, "-echo"]), (stty, [stty, "echo"])] ∧
          (GetPIN w r).trace =
            [Event.spawn stty [stty, "-echo"], Event.close, Event.wait] ++
              ((if r.Desc ≠ "" then [Event.print (r.Desc ++ "\n\n")] else []) ++
                [Event.print ((if r.Prompt = "" then "Password" else r.Prompt) ++ ": "),
                  Event.readStdin]) ++
              [Event.spawn stty [stty, "echo"], Event.close, Event.wait]) := by
  have ht := fallback_trace_explicit w r stty hbin hstty
  refine ⟨ht, ?_, fun h1 h2 => ?_⟩
  · rw [ht]
    by_cases hd : r.Desc = "" <;> cases w.passFails ["-echo"] <;>
      cases w.passFails ["echo"] <;> simp [hd, execCalls]
  · rw [ht, h1, h2]
    by_cases hd : r.Desc = "" <;> simp [hd, started]

/-- Witness for C11: on a machine without pinentry the request `PIN` starts
`stty -echo`, prints `PIN: `, reads, and starts `stty echo`; also when the
read fails. -/
theorem echo_toggled_twice_witness :
    (GetPIN (fallbackWorld (.ok "secretvalue")) promptOnly).trace =
        [Event.spawn "/bin/stty" ["/bin/stty", "-echo"], Event.close, Event.wait,
          Event.print "PIN: ", Event.readStdin,
          Event.spawn "/bin/stty" ["/bin/stty", "echo"], Event.close, Event.wait] ∧
      (GetPIN (fallbackWorld (.error ⟨"EOF"⟩)) promptOnly).trace =
        [Event.spawn "/bin/stty" ["/bin/stty", "-echo"], Event.close, Event.wait,
          Event.print "PIN: ", Event.readStdin,
          Event.spawn "/bin/stty" ["/bin/stty", "echo"], Event.close, Event.wait] ∧
      started (GetPIN (fallbackWorld (.error ⟨"EOF"⟩)) promptOnly).trace =
        [("/bin/stty", ["/bin/stty", "-echo"]), ("/bin/stty", ["/bin/stty", "echo"])] :=
  ⟨((echo_toggled_twice (fallbackWorld (.ok "secretvalue")) promptOnly "/bin/stty"
      rfl rfl).2.2 rfl rfl).2,
    ((echo_toggled_twice (fallbackWorld (.error ⟨"EOF"⟩)) promptOnly "/bin/stty"
      rfl rfl).2.2 rfl rfl).2,
    ((echo_toggled_twice (fallbackWorld (.error ⟨"EOF"⟩)) promptOnly "/bin/stty"
      rfl rfl).2.2 rfl rfl).1⟩

/-- C12 as stated fails: for the request with prompt `PIN` the fallback
prints `PIN: `, with a colon before the space, not `PIN `. -/
theorem fallback_prompt_has_colon :
    (fallbackWorld (.ok "secretvalue")).pinentry = none ∧
      (fallbackWorld (.ok "secretvalue")).stty = some "/bin/stty" ∧
      printed (GetPIN (fallbackWorld (.ok "secretvalue")) promptOnly).trace = "PIN: " ∧
      printed (GetPIN (fallbackWorld (.ok "secretvalue")) promptOnly).trace ≠
        (if promptOnly.Desc ≠ "" then promptOnly.Desc ++ "\n\n" else "") ++
          (if promptOnly.Prompt = "" then "Password" else promptOnly.Prompt) ++ " " :=
  ⟨rfl, rfl, by decide, by decide⟩

/-- C12, amended: on the fallback path with stty found, the text written to
standard output is the description followed by a blank line when Desc is not
empty and nothing otherwise, then the prompt label (Prompt, or `Password`
when Prompt is empty) followed by a colon and a space, with no newline after
it. -/
theorem fallback_output (w : World) (r : Request) (stty : String)
    (hbin : w.pinentry = none) (hstty : w.stty = some stty) :
    printed (GetPIN w r).trace =
      (if r.Desc ≠ "" then r.Desc ++ "\n\n" else "") ++
        (if r.Prompt = "" then "Password" else r.Prompt) ++ ": " := by
  rw [fallback_trace w r stty hbin hstty]
  simp only [printed, prints_append, runPass_prints]
  by_cases hd : r.Desc = "" <;> simp [hd, prints, String.join, String.append_assoc]

/-- Witness for C12, amended: with a description and no prompt the fallback
prints the description, a blank line and `Password: `. -/
theorem fallback_output_witness :
    printed (GetPIN (fallbackWorld (.ok "secretvalue")) ⟨"Unlock", "", "", "", ""⟩).trace =
      "Unlock\n\nPassword: " :=
  fallback_output (fallbackWorld (.ok "secretvalue")) ⟨"Unlock", "", "", "", ""⟩ "/bin/stty"
    rfl rfl

/-- C13: when neither pinentry nor stty is found, GetPIN returns at once the
empty secret and the error `no pinentry or stty found`, which is not
ErrCancel; the trace is empty: no program is run, nothing is printed and
standard input is not read. -/
theorem unavailable_fails_at_once (w : World) (r : Request)
    (hbin : w.pinentry = none) (hstty : w.stty = none) :
    (GetPIN w r).pin = "" ∧
      (GetPIN w r).err = some (.errorString "no pinentry or stty found") ∧
      (GetPIN w r).err ≠ some ErrCancel ∧
      (GetPIN w r).trace = [] := by
  simp [GetPIN, hbin, getPINNaive, hstty, St.init, ErrCancel]

/-- Witness for C13: a machine with neither program. -/
theorem unavailable_fails_at_once_witness :
    (GetPIN { fallbackWorld (.ok "secretvalue") with stty := none } promptOnly).pin = "" ∧
      (GetPIN { fallbackWorld (.ok "secretvalue") with stty := none } promptOnly).err =
        some (.errorString "no pinentry or stty found") ∧
      (GetPIN { fallbackWorld (.ok "secretvalue") with stty := none } promptOnly).err ≠
        some ErrCancel ∧
      (GetPIN { fallbackWorld (.ok "secretvalue") with stty := none } promptOnly).trace = [] :=
  unavailable_fails_at_once { fallbackWorld (.ok "secretvalue") with stty := none } promptOnly
    rfl rfl

/-! ## The shapes of a run on the protocol path -/

theorem GetPIN_shapes (w : World) (r : Request) (bin : String)
    (hbin : w.pinentry = some bin) (hrun : w.runErr = none) :
    (∃ e, e ≠ "pinentry: Cancel" ∧
        GetPIN w r = ⟨"", some (.errorString e),
          [Event.spawn bin [bin], Event.readLine] ++ cleanupEvents⟩) ∨
      (∃ e k, e ≠ "pinentry: Cancel" ∧ 1 ≤ k ∧ k ≤ numConfig w r ∧
        GetPIN w r = ⟨"", some (.errorString e),
          [Event.spawn bin [bin], Event.readLine] ++
            turns ((sent (configCmds w r)).take k) ++ cleanupEvents⟩) ∨
      GetPIN w r =
        ⟨(getpinReply (w.helperOut (numConfig w r + 1))).1,
          (getpinReply (w.helperOut (numConfig w r + 1))).2,
          [Event.spawn bin [bin], Event.readLine] ++ turns (sent (configCmds w r)) ++
            [Event.write "GETPIN\n", Event.readLine] ++ cleanupEvents⟩ := by
  classical
  by_cases hgr : ∃ g, w.helperOut 0 = .ok g ∧ HasPrefix g "OK" = true
  · obtain ⟨g, hg, hOK⟩ := hgr
    rcases first_bad (fun j => w.helperOut (j + 1) = .ok "OK") (numConfig w r) with h | h
    · right; right
      exact GetPIN_accepted w r bin g hbin hrun hg hOK (by
        intro j h1 h2
        have := h (j - 1) (by omega)
        rwa [Nat.sub_add_cancel h1] at this)
    · right; left
      obtain ⟨k, hk, hlt, hbad⟩ := h
      obtain ⟨e, he, hG⟩ := GetPIN_rejected w r bin g (k + 1) hbin hrun hg hOK (by omega)
        (by omega)
        (by
          intro j h1 h2
          have := hlt (j - 1) (by omega)
          rwa [Nat.sub_add_cancel h1] at this)
        hbad
      exact ⟨e, k + 1, he, by omega, by omega, hG⟩
  · left
    exact GetPIN_greeting w r bin hbin hrun (by
      intro g hg
      cases hp : HasPrefix g "OK" with
      | false => rfl
      | true => exact absurd ⟨g, hg, hp⟩ hgr)

theorem turns_isTurn (cs : List (String × String)) : ∀ e ∈ turns cs, e.isTurn = true := by
  intro e he
  simp only [turns, List.mem_flatMap] at he
  obtain ⟨c, _, hc⟩ := he
  simp at hc
  rcases hc with rfl | rfl <;> rfl

/-- C14: whenever the helper was spawned, on every way out of GetPIN (a
secret, a cancellation, a bad greeting, a panic of `set`, an unexpected reply
to GETPIN) the trace is the spawn, then only writes to and reads from the
helper, then the cleanup once, as the last four events: standard input of
the helper closed, its standard output closed, `Close`, `Wait`.  Nothing is
written or read after it. -/
theorem helper_released_once (w : World) (r : Request) (bin : String)
    (hbin : w.pinentry = some bin) (hrun : w.runErr = none) :
    ∃ body, (GetPIN w r).trace =
        Event.spawn bin [bin] :: body ++
          [Event.stdinClose, Event.stdoutClose, Event.close, Event.wait] ∧
      ∀ e ∈ body, e.isTurn = true := by
  rcases GetPIN_shapes w r bin hbin hrun with ⟨e, _, hG⟩ | ⟨e, k, _, _, _, hG⟩ | hG
  · refine ⟨[Event.readLine], by rw [hG]; simp [cleanupEvents], ?_⟩
    intro e he
    simp at he
    rw [he]; rfl
  · refine ⟨Event.readLine :: turns ((sent (configCmds w r)).take k),
      by rw [hG]; simp [cleanupEvents], ?_⟩
    intro e he
    rcases List.mem_cons.mp he with rfl | he
    · rfl
    · exact turns_isTurn _ e he
  · refine ⟨Event.readLine :: (turns (sent (configCmds w r)) ++
      [Event.write "GETPIN\n", Event.readLine]), by rw [hG]; simp [cleanupEvents], ?_⟩
    intro e he
    rcases List.mem_cons.mp he with rfl | he
    · rfl
    · rcases List.mem_append.mp he with he | he
      · exact turns_isTurn _ e he
      · simp at he
        rcases he with rfl | rfl <;> rfl

/-- Witness for C14: after a panic of `set` (the reply to OPTION is `OK done`)
the trace still ends with the cleanup, once. -/
theorem helper_released_once_witness :
    ∃ body,
      (GetPIN (helperWorld fun k => if k = 2 then .ok "OK done" else .ok "OK")
          promptOnly).trace =
        Event.spawn "/usr/bin/pinentry" ["/usr/bin/pinentry"] :: body ++
          [Event.stdinClose, Event.stdoutClose, Event.close, Event.wait] ∧
      ∀ e ∈ body, e.isTurn = true :=
  helper_released_once (helperWorld fun k => if k = 2 then .ok "OK done" else .ok "OK")
    promptOnly "/usr/bin/pinentry" rfl rfl

/-! ## Lemmas on the ttyname option -/

theorem sent_configCmds_some (w : World) (r : Request) (p : String) (h : w.tty = some p) :
    (sent (configCmds w r)).map cmdLine =
      upToTtytype w r ++ ["OPTION ttyname=" ++ p ++ "\n"] := by
  rw [sent_configCmds, h, upToTtytype]

theorem sent_configCmds_none (w : World) (r : Request) (h : w.tty = none) :
    (sent (configCmds w r)).map cmdLine = upToTtytype w r := by
  rw [sent_configCmds, h, upToTtytype, List.append_nil]

theorem numConfig_pos (w : World) (r : Request) : 1 ≤ numConfig w r := by
  have h := congrArg List.length (sent_configCmds w r)
  simp only [List.length_map, List.length_append, List.length_singleton] at h
  unfold numConfig
  omega

theorem writes_accepted (w : World) (r : Request) (bin : String) :
    writes ([Event.spawn bin [bin], Event.readLine] ++ turns (sent (configCmds w r)) ++
        [Event.write "GETPIN\n", Event.readLine] ++ cleanupEvents) =
      (sent (configCmds w r)).map cmdLine ++ ["GETPIN\n"] := by
  simp only [writes_append, writes_turns, writes_cleanupEvents]
  simp [writes]

theorem writes_rejected (cs : List (String × String)) (bin : String) :
    writes ([Event.spawn bin [bin], Event.readLine] ++ turns cs ++ cleanupEvents) =
      cs.map cmdLine := by
  simp only [writes_append, writes_turns, writes_cleanupEvents]
  simp [writes]

/-- C15: after a handshake accepted up to and including `OPTION ttytype`:
when the tty path `p` of standard input resolves, GetPIN writes the line
`OPTION ttyname=p` once, right after the ttytype line; when its reply is
exactly `OK`, `GETPIN` is the next line and the result is read off the reply
to GETPIN; when its reply is anything else, nothing more is written and
GetPIN returns the empty secret with an error that is not ErrCancel.  When
the path does not resolve, no ttyname line is written, `GETPIN` follows the
ttytype line, and the result is read off the reply to GETPIN in the same way. -/
theorem ttyname_option (w : World) (r : Request) (bin g : String)
    (hbin : w.pinentry = some bin) (hrun : w.runErr = none)
    (hg : w.helperOut 0 = .ok g) (hOK : HasPrefix g "OK" = true) :
    (∀ p, w.tty = some p →
      (∀ j, 1 ≤ j → j < numConfig w r → w.helperOut j = .ok "OK") →
      (w.helperOut (numConfig w r) = .ok "OK" →
        writes (GetPIN w r).trace =
            upToTtytype w r ++ ["OPTION ttyname=" ++ p ++ "\n", "GETPIN\n"] ∧
          ((GetPIN w r).pin, (GetPIN w r).err) =
            getpinReply (w.helperOut (numConfig w r + 1))) ∧
      (w.helperOut (numConfig w r) ≠ .ok "OK" →
        writes (GetPIN w r).trace = upToTtytype w r ++ ["OPTION ttyname=" ++ p ++ "\n"] ∧
          (GetPIN w r).pin = "" ∧ ∃ e, (GetPIN w r).err = some e ∧ e ≠ ErrCancel)) ∧
      (w.tty = none →
        (∀ j, 1 ≤ j → j ≤ numConfig w r → w.helperOut j = .ok "OK") →
        writes (GetPIN w r).trace = upToTtytype w r ++ ["GETPIN\n"] ∧
          ((GetPIN w r).pin, (GetPIN w r).err) =
            getpinReply (w.helperOut (numConfig w r + 1))) := by
  refine ⟨fun p hp hcfg => ⟨fun hlast => ?_, fun hlast => ?_⟩, fun hn hcfg => ?_⟩
  · have hall : ∀ j, 1 ≤ j → j ≤ numConfig w r → w.helperOut j = .ok "OK" := by
      intro j h1 h2
      rcases Nat.lt_or_eq_of_le h2 with h3 | h3
      · exact hcfg j h1 h3
      · rw [h3]; exact hlast
    rw [GetPIN_accepted w r bin g hbin hrun hg hOK hall]
    refine ⟨?_, rfl⟩
    rw [writes_accepted, sent_configCmds_some w r p hp]
    simp
  · obtain ⟨e, he, hG⟩ := GetPIN_rejected w r bin g (numConfig w r) hbin hrun hg hOK
      (numConfig_pos w r) (Nat.le_refl _) hcfg hlast
    rw [hG]
    refine ⟨?_, rfl, _, rfl, errorString_ne_cancel e he⟩
    rw [writes_rejected]
    have ht : (sent (configCmds w r)).take (numConfig w r) = sent (configCmds w r) :=
      List.take_of_length_le (Nat.le_refl _)
    rw [ht, sent_configCmds_some w r p hp]
  · rw [GetPIN_accepted w r bin g hbin hrun hg hOK hcfg]
    refine ⟨?_, rfl⟩
    rw [writes_accepted, sent_configCmds_none w r hn]

/-- Witness for C15: with the tty `/dev/pts/3` and every reply `OK`, the
ttyname line comes between the ttytype line and GETPIN. -/
theorem ttyname_option_witness :
    writes (GetPIN (ttyWorld (fun _ => .ok "OK")) promptOnly).trace =
      ["SETPROMPT PIN\n", "OPTION ttytype=xterm\n", "OPTION ttyname=/dev/pts/3\n",
        "GETPIN\n"] :=
  ((ttyname_option (ttyWorld (fun _ => .ok "OK")) promptOnly "/usr/bin/pinentry" "OK"
    rfl rfl rfl (by decide)).1 "/dev/pts/3" rfl (fun _ _ _ => rfl)).1 rfl |>.1

/-- C16 as stated fails: pinentry is found and started, its greeting is
`ERR 1 no display`, and GetPIN does not do what the fallback prompt would do
on this machine: the fallback would return `secretvalue` with no error after
reading standard input, GetPIN returns the empty secret with an error and
never reads standard input nor runs stty. -/
theorem bad_greeting_is_not_fallback :
    (helperWorld (fun _ => .ok "ERR 1 no display")).pinentry = some "/usr/bin/pinentry" ∧
      (helperWorld (fun _ => .ok "ERR 1 no display")).helperOut 0 = .ok "ERR 1 no display" ∧
      HasPrefix "ERR 1 no display" "OK" = false ∧
      (getPINNaive (helperWorld (fun _ => .ok "ERR 1 no display")) promptOnly St.init).1 =
        ("secretvalue", none) ∧
      (GetPIN (helperWorld (fun _ => .ok "ERR 1 no display")) promptOnly).pin = "" ∧
      (GetPIN (helperWorld (fun _ => .ok "ERR 1 no display")) promptOnly).err ≠ none ∧
      Event.readStdin ∉ (GetPIN (helperWorld (fun _ => .ok "ERR 1 no display")) promptOnly).trace ∧
      invocations (GetPIN (helperWorld (fun _ => .ok "ERR 1 no display")) promptOnly).trace =
        [["/usr/bin/pinentry"]] :=
  ⟨rfl, rfl, by decide, rfl, by decide, by decide, by decide, by decide⟩

/-- C16, amended: when pinentry is found and started and its greeting cannot
be read or does not begin with `OK`, GetPIN does not fall back: it returns
the empty secret with an error that is not ErrCancel, the only program run is
pinentry (stty is not run), nothing is printed and standard input is not
read. -/
theorem bad_greeting_no_fallback (w : World) (r : Request) (bin : String)
    (hbin : w.pinentry = some bin) (hrun : w.runErr = none)
    (hbad : ∀ g, w.helperOut 0 = .ok g → HasPrefix g "OK" = false) :
    (GetPIN w r).pin = "" ∧
      (∃ e, (GetPIN w r).err = some e ∧ e ≠ ErrCancel) ∧
      invocations (GetPIN w r).trace = [[bin]] ∧
      prints (GetPIN w r).trace = [] ∧
      Event.readStdin ∉ (GetPIN w r).trace ∧
      ∀ e ∈ (GetPIN w r).trace, e.isTerminal = false := by
  obtain ⟨e, he, hG⟩ := GetPIN_greeting w r bin hbin hrun hbad
  rw [hG]
  refine ⟨rfl, ⟨_, rfl, errorString_ne_cancel e he⟩, by simp [invocations, cleanupEvents],
    by simp [prints, cleanupEvents], by simp [cleanupEvents], ?_⟩
  intro x hx
  simp [cleanupEvents] at hx
  rcases hx with rfl | rfl | rfl | rfl | rfl | rfl <;> rfl

/-- Witness for C16, amended: a helper whose greeting cannot be read. -/
theorem bad_greeting_no_fallback_witness :
    (GetPIN (helperWorld (fun _ => .error ⟨"EOF"⟩)) promptOnly).pin = "" ∧
      invocations (GetPIN (helperWorld (fun _ => .error ⟨"EOF"⟩)) promptOnly).trace =
        [["/usr/bin/pinentry"]] ∧
      prints (GetPIN (helperWorld (fun _ => .error ⟨"EOF"⟩)) promptOnly).trace = [] ∧
      Event.readStdin ∉ (GetPIN (helperWorld (fun _ => .error ⟨"EOF"⟩)) promptOnly).trace :=
  have h := bad_greeting_no_fallback (helperWorld (fun _ => .error ⟨"EOF"⟩)) promptOnly
    "/usr/bin/pinentry" rfl rfl (fun g hg => by cases hg)
  ⟨h.1, h.2.2.1, h.2.2.2.1, h.2.2.2.2.1⟩

/-- C18: after an accepted handshake, the reply `D` without a space and the
reply `ERR 83886179` without a space are unexpected replies: GetPIN returns
the empty secret and the error `GETPIN response didn't start with D; got`
with the quoted line, which is not ErrCancel; the reply `D ` with nothing
after the space returns the empty secret and no error. -/
theorem reply_prefixes_end_in_space (w : World) (r : Request) (bin g : String)
    (hbin : w.pinentry = some bin) (hrun : w.runErr = none)
    (hg : w.helperOut 0 = .ok g) (hOK : HasPrefix g "OK" = true)
    (hcfg : ∀ j, 1 ≤ j → j ≤ numConfig w r → w.helperOut j = .ok "OK") :
    (w.helperOut (numConfig w r + 1) = .ok "D" →
        (GetPIN w r).pin = "" ∧
          (GetPIN w r).err = some (.errorString
            ("GETPIN response didn't start with D; got " ++ quote "D")) ∧
          (GetPIN w r).err ≠ some ErrCancel) ∧
      (w.helperOut (numConfig w r + 1) = .ok "ERR 83886179" →
        (GetPIN w r).pin = "" ∧
          (GetPIN w r).err = some (.errorString
            ("GETPIN response didn't start with D; got " ++ quote "ERR 83886179")) ∧
          (GetPIN w r).err ≠ some ErrCancel) ∧
      (w.helperOut (numConfig w r + 1) = .ok "D " →
        (GetPIN w r).pin = "" ∧ (GetPIN w r).err = none) := by
  rw [GetPIN_accepted w r bin g hbin hrun hg hOK hcfg]
  refine ⟨fun h => ?_, fun h => ?_, fun h => ?_⟩
  · rw [h]
    refine ⟨rfl, rfl, ?_⟩
    show (getpinReply (.ok "D")).2 ≠ some ErrCancel
    decide
  · rw [h]
    refine ⟨rfl, rfl, ?_⟩
    show (getpinReply (.ok "ERR 83886179")).2 ≠ some ErrCancel
    decide
  · rw [h]
    refine ⟨?_, rfl⟩
    show (getpinReply (.ok "D ")).1 = ""
    decide

/-- Witness for C18: the three replies on the scripted helper. -/
theorem reply_prefixes_end_in_space_witness :
    ((GetPIN (helperWorld (scriptedOut (.ok "D"))) promptOnly).pin = "" ∧
        (GetPIN (helperWorld (scriptedOut (.ok "D"))) promptOnly).err ≠ some ErrCancel ∧
        (GetPIN (helperWorld (scriptedOut (.ok "D"))) promptOnly).err ≠ none) ∧
      ((GetPIN (helperWorld (scriptedOut (.ok "ERR 83886179"))) promptOnly).pin = "" ∧
        (GetPIN (helperWorld (scriptedOut (.ok "ERR 83886179"))) promptOnly).err ≠
          some ErrCancel ∧
        (GetPIN (helperWorld (scriptedOut (.ok "ERR 83886179"))) promptOnly).err ≠ none) ∧
      ((GetPIN (helperWorld (scriptedOut (.ok "D "))) promptOnly).pin = "" ∧
        (GetPIN (helperWorld (scriptedOut (.ok "D "))) promptOnly).err = none) :=
  have hc : ∀ x : ReadResult, ∀ j, 1 ≤ j → j ≤ numConfig (helperWorld (scriptedOut x)) promptOnly →
      (helperWorld (scriptedOut x)).helperOut j = .ok "OK" := by
    intro x j h1 h2
    have hn : numConfig (helperWorld (scriptedOut x)) promptOnly = 2 := rfl
    rw [hn] at h2
    interval_cases j <;> rfl
  have h1 := (reply_prefixes_end_in_space (helperWorld (scriptedOut (.ok "D"))) promptOnly
    "/usr/bin/pinentry" "OK Pleased to meet you" rfl rfl rfl (by decide) (hc _)).1 rfl
  have h2 := (reply_prefixes_end_in_space (helperWorld (scriptedOut (.ok "ERR 83886179")))
    promptOnly "/usr/bin/pinentry" "OK Pleased to meet you" rfl rfl rfl (by decide)
    (hc _)).2.1 rfl
  have h3 := (reply_prefixes_end_in_space (helperWorld (scriptedOut (.ok "D "))) promptOnly
    "/usr/bin/pinentry" "OK Pleased to meet you" rfl rfl rfl (by decide) (hc _)).2.2 rfl
  ⟨⟨h1.1, h1.2.2, by rw [h1.2.1]; simp⟩, ⟨h2.1, h2.2.2, by rw [h2.2.1]; simp⟩, h3⟩

/-! ## Lemmas on turn-taking -/

theorem turns_eq_exchanges (cs : List (String × String)) :
    turns cs = exchanges (cs.map cmdLine) := by
  induction cs with
  | nil => rfl
  | cons c cs ih =>
    have h1 : turns (c :: cs) = [Event.write (cmdLine c), Event.readLine] ++ turns cs := by
      simp [turns]
    have h2 : exchanges (List.map cmdLine (c :: cs)) =
        [Event.write (cmdLine c), Event.readLine] ++ exchanges (List.map cmdLine cs) := by
      simp [exchanges]
    rw [h1, h2, ih]

theorem exchanges_append (a b : List String) :
    exchanges (a ++ b) = exchanges a ++ exchanges b := by
  simp [exchanges]

theorem writes_exchanges (ws : List String) : writes (exchanges ws) = ws := by
  induction ws with
  | nil => rfl
  | cons s ws ih =>
    have h : exchanges (s :: ws) = [Event.write s, Event.readLine] ++ exchanges ws := by
      simp [exchanges]
    rw [h, writes_append, ih]
    simp [writes]

theorem readCount_append (a b : List Event) :
    readCount (a ++ b) = readCount a + readCount b := by
  simp [readCount]

theorem readCount_exchanges (ws : List String) : readCount (exchanges ws) = ws.length := by
  induction ws with
  | nil => rfl
  | cons s ws ih =>
    have h : exchanges (s :: ws) = [Event.write s, Event.readLine] ++ exchanges ws := by
      simp [exchanges]
    rw [h, readCount_append, ih]
    simp [readCount, Nat.add_comm]

theorem turn_trace_counts (bin : String) (ws : List String) :
    writes ([Event.spawn bin [bin], Event.readLine] ++ exchanges ws ++ cleanupEvents) = ws ∧
      readCount ([Event.spawn bin [bin], Event.readLine] ++ exchanges ws ++ cleanupEvents) =
        ws.length + 1 := by
  constructor
  · simp only [writes_append, writes_exchanges, writes_cleanupEvents]
    simp [writes]
  · simp only [readCount_append, readCount_exchanges]
    simp [readCount, cleanupEvents, Nat.add_comm]

theorem newlines_append (a b : String) : newlines (a ++ b) = newlines a + newlines b := by
  simp [newlines, String.data_append]

theorem newlines_cmdLine (a v : String) (ha : newlines a = 0) (hv : newlines v = 0) :
    newlines (cmdLine (a, v)) = 1 := by
  have h1 : newlines " " = 0 := by decide
  have h2 : newlines "\n" = 1 := by decide
  simp only [cmdLine, newlines_append, ha, hv, h1, h2]

theorem newlines_configCmds (w : World) (r : Request)
    (hf : ∀ v ∈ [r.Prompt, r.Desc, r.OK, r.Cancel, r.Error, w.term], newlines v = 0)
    (ht : ∀ p, w.tty = some p → newlines p = 0) :
    ∀ c ∈ configCmds w r, newlines (cmdLine c) = 1 := by
  have hP := hf r.Prompt (by simp)
  have hD := hf r.Desc (by simp)
  have hO := hf r.OK (by simp)
  have hC := hf r.Cancel (by simp)
  have hE := hf r.Error (by simp)
  have hT : newlines ("ttytype=" ++ w.term) = 0 := by
    rw [newlines_append, hf w.term (by simp)]; decide
  intro c hc
  unfold configCmds at hc
  cases htty : w.tty with
  | none =>
    simp only [htty, List.append_nil, List.mem_cons, List.mem_singleton, List.not_mem_nil,
      or_false] at hc
    rcases hc with rfl | rfl | rfl | rfl | rfl | rfl
    · exact newlines_cmdLine _ _ (by decide) hP
    · exact newlines_cmdLine _ _ (by decide) hD
    · exact newlines_cmdLine _ _ (by decide) hO
    · exact newlines_cmdLine _ _ (by decide) hC
    · exact newlines_cmdLine _ _ (by decide) hE
    · exact newlines_cmdLine _ _ (by decide) hT
  | some p =>
    have hN : newlines ("ttyname=" ++ p) = 0 := by
      rw [newlines_append, ht p htty]; decide
    simp only [htty, List.cons_append, List.nil_append, List.mem_cons, List.mem_singleton,
      List.not_mem_nil, or_false] at hc
    rcases hc with rfl | rfl | rfl | rfl | rfl | rfl | rfl
    · exact newlines_cmdLine _ _ (by decide) hP
    · exact newlines_cmdLine _ _ (by decide) hD
    · exact newlines_cmdLine _ _ (by decide) hO
    · exact newlines_cmdLine _ _ (by decide) hC
    · exact newlines_cmdLine _ _ (by decide) hE
    · exact newlines_cmdLine _ _ (by decide) hT
    · exact newlines_cmdLine _ _ (by decide) hN

theorem sum_newlines_eq_length (ws : List String) (h : ∀ s ∈ ws, newlines s = 1) :
    (ws.map newlines).sum = ws.length := by
  induction ws with
  | nil => rfl
  | cons s ws ih =>
    simp only [List.map_cons, List.sum_cons, List.length_cons]
    rw [h s (by simp), ih (fun x hx => h x (by simp [hx]))]
    omega

/-- C17 as stated fails: with the prompt `a`, newline, `b` and a helper that
answers `OK` to everything, GetPIN writes four newline-terminated lines to
the helper and reads four lines in all, three of them after the greeting. -/
theorem newline_in_field_breaks_line_count :
    (helperWorld (fun _ => .ok "OK")).pinentry = some "/usr/bin/pinentry" ∧
      (helperWorld (fun _ => .ok "OK")).runErr = none ∧
      writes (GetPIN (helperWorld (fun _ => .ok "OK")) twoLinePrompt).trace =
        ["SETPROMPT a\nb\n", "OPTION ttytype=xterm\n", "GETPIN\n"] ∧
      linesWritten (GetPIN (helperWorld (fun _ => .ok "OK")) twoLinePrompt).trace = 4 ∧
      readCount (GetPIN (helperWorld (fun _ => .ok "OK")) twoLinePrompt).trace = 4 ∧
      linesWritten (GetPIN (helperWorld (fun _ => .ok "OK")) twoLinePrompt).trace ≠
        readCount (GetPIN (helperWorld (fun _ => .ok "OK")) twoLinePrompt).trace - 1 :=
  ⟨rfl, rfl, by decide, by decide, by decide, by decide⟩

/-- C17, amended: on the protocol path, in every execution and for every
Request, after the read of the greeting each step makes one write to the
helper and then one read, up to the cleanup; so the number of writes equals
the number of lines read after the greeting, and the number of reads is one
more than the number of writes.  Each write is one newline-terminated line,
and so the number of lines written equals the number of writes, when no
field of the Request, nor TERM, nor the tty path holds a newline character. -/
theorem strict_turn_taking (w : World) (r : Request) (bin : String)
    (hbin : w.pinentry = some bin) (hrun : w.runErr = none) :
    ∃ ws : List String,
      (GetPIN w r).trace =
        [Event.spawn bin [bin], Event.readLine] ++ exchanges ws ++
          [Event.stdinClose, Event.stdoutClose, Event.close, Event.wait] ∧
      writes (GetPIN w r).trace = ws ∧
      readCount (GetPIN w r).trace = ws.length + 1 ∧
      ((∀ v ∈ [r.Prompt, r.Desc, r.OK, r.Cancel, r.Error, w.term], newlines v = 0) →
        (∀ p, w.tty = some p → newlines p = 0) →
        linesWritten (GetPIN w r).trace = ws.length) := by
  have key : ∀ ws : List String,
      (GetPIN w r).trace = [Event.spawn bin [bin], Event.readLine] ++ exchanges ws ++
        cleanupEvents →
      ((∀ v ∈ [r.Prompt, r.Desc, r.OK, r.Cancel, r.Error, w.term], newlines v = 0) →
        (∀ p, w.tty = some p → newlines p = 0) → ∀ s ∈ ws, newlines s = 1) →
      ∃ ws : List String,
        (GetPIN w r).trace =
          [Event.spawn bin [bin], Event.readLine] ++ exchanges ws ++
            [Event.stdinClose, Event.stdoutClose, Event.close, Event.wait] ∧
        writes (GetPIN w r).trace = ws ∧
        readCount (GetPIN w r).trace = ws.length + 1 ∧
        ((∀ v ∈ [r.Prompt, r.Desc, r.OK, r.Cancel, r.Error, w.term], newlines v = 0) →
          (∀ p, w.tty = some p → newlines p = 0) →
          linesWritten (GetPIN w r).trace = ws.length) := by
    intro ws ht hnl
    have hc := turn_trace_counts bin ws
    rw [← ht] at hc
    refine ⟨ws, ht, hc.1, hc.2, fun hf hp => ?_⟩
    unfold linesWritten
    rw [hc.1]
    exact sum_newlines_eq_length ws (hnl hf hp)
  rcases GetPIN_shapes w r bin hbin hrun with ⟨e, _, hG⟩ | ⟨e, k, _, _, _, hG⟩ | hG
  · refine key [] (by rw [hG]; rfl) ?_
    intro _ _ s hs
    cases hs
  · refine key (((sent (configCmds w r)).take k).map cmdLine)
      (by rw [hG, turns_eq_exchanges]) ?_
    intro hf hp s hs
    obtain ⟨c, hc, rfl⟩ := List.mem_map.mp hs
    exact newlines_configCmds w r hf hp c
      (List.mem_of_mem_filter (List.mem_of_mem_take hc))
  · refine key ((sent (configCmds w r)).map cmdLine ++ ["GETPIN\n"])
      (by
        rw [hG, turns_eq_exchanges, exchanges_append]
        simp [exchanges]) ?_
    intro hf hp s hs
    rcases List.mem_append.mp hs with hs | hs
    · obtain ⟨c, hc, rfl⟩ := List.mem_map.mp hs
      exact newlines_configCmds w r hf hp c (List.mem_of_mem_filter hc)
    · rw [List.mem_singleton.mp hs]
      decide

/-- Witness for C17, amended: with prompt `PIN` three lines are written and
four are read; with the two-line prompt three writes are made and four lines
are read. -/
theorem strict_turn_taking_witness :
    (∃ ws : List String,
      (GetPIN (helperWorld (fun _ => .ok "OK")) twoLinePrompt).trace =
        [Event.spawn "/usr/bin/pinentry" ["/usr/bin/pinentry"], Event.readLine] ++
          exchanges ws ++
          [Event.stdinClose, Event.stdoutClose, Event.close, Event.wait] ∧
      writes (GetPIN (helperWorld (fun _ => .ok "OK")) twoLinePrompt).trace = ws ∧
      readCount (GetPIN (helperWorld (fun _ => .ok "OK")) twoLinePrompt).trace =
        ws.length + 1) ∧
      linesWritten (GetPIN (helperWorld (fun _ => .ok "OK")) promptOnly).trace = 3 ∧
      readCount (GetPIN (helperWorld (fun _ => .ok "OK")) promptOnly).trace = 4 :=
  have h1 := strict_turn_taking (helperWorld (fun _ => .ok "OK")) twoLinePrompt
    "/usr/bin/pinentry" rfl rfl
  have h2 := strict_turn_taking (helperWorld (fun _ => .ok "OK")) promptOnly
    "/usr/bin/pinentry" rfl rfl
  ⟨h1.elim fun ws h => ⟨ws, h.1, h.2.1, h.2.2.1⟩,
    h2.elim fun ws h => by
      have hw : ws.length = 3 := by rw [← h.2.1]; decide
      have hl := h.2.2.2 (by decide) (by intro p hp; cases hp)
      exact ⟨by rw [hl, hw], by rw [h.2.2.1, hw]⟩⟩

end Pinentry
